import Mathlib

/-!
The LISFLOOD-FP step-loop driver (`lib_bmi.cpp`, `run_lisflood`).

A shallow embedding of the single entry point `run_lisflood` and of what it
does to its surroundings: the lines it prints, the engine operations it calls
and the clock fields it reads, in the order in which the source does them.

The numerical engine (`init`, `init_iterateq`, `iterateq_step`, `final` and the
global `Solverptr`) is declared in headers outside `lib_bmi.cpp`; it is a
parameter of the embedding (`Engine`), over an arbitrary engine state.
-/

namespace Lisflood

/-! ## Values -/

/-- Modelled from the spec: the numeric type of the clock fields `t`,
`Sim_Time` and `Tstep` of `*Solverptr` is declared in `lisflood.h`, which is
not among the sources. The driver prints the fields with `%.2f` and `%.4f`
and the spec calls them floating-point state, so a value is a not-a-number, an
infinity or a finite number. The driver only compares and prints these values,
it never computes with them, so finite values are kept as exact rationals
(every finite binary floating-point number is one). -/
inductive Numeric where
  | nan : Numeric
  | negInf : Numeric
  | fin (q : ℚ) : Numeric
  | posInf : Numeric
  deriving DecidableEq

/-- The comparison `a < b` of two clock values: false as soon as one of them
is a not-a-number. -/
def Numeric.lt : Numeric → Numeric → Bool
  | .fin a, .fin b => decide (a < b)
  | .negInf, .fin _ => true
  | .negInf, .posInf => true
  | .fin _, .posInf => true
  | _, _ => false

/-- The comparison `a >= b` of two clock values: false as soon as one of them
is a not-a-number. -/
def Numeric.ge : Numeric → Numeric → Bool
  | .fin a, .fin b => decide (b ≤ a)
  | .fin _, .negInf => true
  | .posInf, .negInf => true
  | .posInf, .fin _ => true
  | .posInf, .posInf => true
  | .negInf, .negInf => true
  | _, _ => false

/-- Whether `n` increments `iter++`, the first of them at counter value `iter`,
all stay within the `int` range: none of them is executed at 2147483647
(INT_MAX), where C++ leaves the overflow undefined. -/
def countsFit (iter : Int) (n : Nat) : Bool := decide (n = 0 ∨ iter + n ≤ 2147483647)

/-! ## Character buffers -/

/-- A `char*`: the index of the character buffer whose first character it
addresses. -/
abbrev Ptr := Nat

/-- The character buffers that exist at some point of the run. Each buffer
holds one NUL-terminated string, kept without its terminator. -/
structure Memory where
  bufs : List String
  deriving DecidableEq

/-- The string a `char*` points to. -/
def Memory.load (m : Memory) (p : Ptr) : String := m.bufs.getD p ""

/-- A `std::string` initialised with the characters `c`: a new buffer of its
own that holds a copy of them. Returns the address of its first character
(`&str[0]`). -/
def Memory.alloc (m : Memory) (c : String) : Ptr × Memory :=
  (m.bufs.length, ⟨m.bufs ++ [c]⟩)

/-- Overwriting the characters of the buffer at `p` in place. -/
def Memory.store (m : Memory) (p : Ptr) (c : String) : Memory :=
  ⟨m.bufs.set p c⟩

/-! ## The engine -/

/-- The fields of `*Solverptr` that the driver reads. -/
structure Solver where
  t : Numeric
  Sim_Time : Numeric
  Tstep : Numeric
  deriving DecidableEq

/-- The engine operations the driver calls, over an engine state `σ` that the
driver never inspects except through `Solverptr`. `init` receives `argc`,
the `argv` pointers and the buffers they point into, and returns its `int`
result. -/
structure Engine (σ : Type) where
  init : Int → List Ptr → Memory → σ → Int × σ
  init_iterateq : σ → σ
  iterateq_step : σ → σ
  final : σ → σ
  Solverptr : σ → Solver

/-! ## What a run does, in order -/

/-- An argument of a `printf` call. -/
inductive Arg where
  | str (s : String) : Arg
  | int (i : Int) : Arg
  | num (x : Numeric) : Arg
  deriving DecidableEq

/-- One observable action of the driver. `cond` is one evaluation of the loop
condition `Solverptr->t < Solverptr->Sim_Time`, with the two values read. -/
inductive Event where
  | printf (fmt : String) (args : List Arg) : Event
  | init (argc : Int) (argv : List Ptr) (mem : Memory) : Event
  | init_iterateq : Event
  | iterateq_step : Event
  | final : Event
  | cond (t Sim_Time : Numeric) : Event
  deriving DecidableEq

/-- Where the step loop stands: whether its condition has been read false
(`exited`), the counter `iter`, whether every `iter++` executed so far stayed
within the `int` range (`defined`), the engine state, and what the loop did. -/
structure LoopState (σ : Type) where
  exited : Bool
  iter : Int
  defined : Bool
  state : σ
  events : List Event

/-- The `while (Solverptr->t < Solverptr->Sim_Time)` loop of `run_lisflood`,
started with counter `iter` in engine state `s`. The source puts no bound on the
number of iterations; `fuel` is how many evaluations of the loop condition are
followed, and `exited = false` says the loop was still running then.

`iter++` is the increment of an `int`: executed at 2147483647 (INT_MAX) it
overflows, which C++ leaves undefined. `defined` is false from then on, and
what the embedding goes on to record (the counter is kept as the integer it
would be) is no longer what the source determines. -/
def stepLoop {σ : Type} (E : Engine σ) : Nat → Int → σ → LoopState σ
  | 0, iter, s => ⟨false, iter, true, s, []⟩
  | fuel + 1, iter, s =>
    let c := E.Solverptr s
    if Numeric.lt c.t c.Sim_Time then
      let s1 := E.iterateq_step s
      let iter1 := iter + 1
      let hb := if iter1.tmod 100 = 0 then
          [Event.printf "Status: Step %d | Time: %.2fs / %.2fs | dt: %.4fs\n"
            [Arg.int iter1, Arg.num (E.Solverptr s1).t, Arg.num (E.Solverptr s1).Sim_Time,
             Arg.num (E.Solverptr s1).Tstep]]
        else []
      let r := stepLoop E fuel iter1 s1
      { r with
        defined := decide (iter < 2147483647) && r.defined
        events := [Event.cond c.t c.Sim_Time, Event.iterateq_step] ++ hb ++ r.events }
    else
      ⟨true, iter, true, s, [Event.cond c.t c.Sim_Time]⟩

/-- The argument vector of `run_lisflood`: `progName` and `paramFile` are two
`std::string` objects, `argv` holds the addresses of their first characters. -/
def buildArgv (m : Memory) (par_filename : Ptr) : List Ptr × Memory :=
  let (progName, m1) := m.alloc "lisflood"
  let (paramFile, m2) := m1.alloc (m1.load par_filename)
  ([progName, paramFile], m2)

/-- The call `init(argc, argv.data())` of `run_lisflood`. -/
def callInit {σ : Type} (E : Engine σ) (m : Memory) (par_filename : Ptr) (s : σ) : Int × σ :=
  E.init 2 (buildArgv m par_filename).1 (buildArgv m par_filename).2 s

/-- The engine state in which the step loop starts: after `init` and
`init_iterateq`. -/
def loopStart {σ : Type} (E : Engine σ) (m : Memory) (par_filename : Ptr) (s : σ) : σ :=
  E.init_iterateq (callInit E m par_filename s).2

/-- What a run of `run_lisflood` has done: `ret` is the returned `int`, or
`none` when the step loop was still running after `fuel` evaluations of its
condition; `iter` is the local counter once it is declared; `defined` says
that no `iter++` has overflowed the `int`; `trace` is what was done up to
then. -/
structure Run (σ : Type) where
  ret : Option Int
  iter : Option Int
  defined : Bool
  state : σ
  trace : List Event

/-- The function `run_lisflood(char* par_filename)`. -/
def run_lisflood {σ : Type} (E : Engine σ) (fuel : Nat) (m : Memory) (par_filename : Ptr)
    (s : σ) : Run σ :=
  let banner := [Event.printf "Running in Single-Threaded Mode (WASM Standard)\n" [],
    Event.printf "Parameter file: %s\n" [Arg.str (m.load par_filename)]]
  let argv := (buildArgv m par_filename).1
  let argc : Int := 2
  let result := (callInit E m par_filename s).1
  let s1 := (callInit E m par_filename s).2
  let pre := banner ++ [Event.init argc argv (buildArgv m par_filename).2]
  if result ≠ 0 then
    ⟨some result, none, true, E.final s1, pre ++
      [Event.printf "Initialization failed with code %d. Cleaning up...\n" [Arg.int result],
       Event.final]⟩
  else
    let s2 := E.init_iterateq s1
    let start := Event.printf "Status: Starting simulation loop from t=%.2f to %.2f\n"
      [Arg.num (E.Solverptr s2).t, Arg.num (E.Solverptr s2).Sim_Time]
    let r := stepLoop E fuel 0 s2
    if r.exited then
      ⟨some 0, some r.iter, r.defined, E.final r.state,
        pre ++ [Event.init_iterateq, start] ++ r.events ++ [Event.final]⟩
    else
      ⟨none, some r.iter, r.defined, r.state, pre ++ [Event.init_iterateq, start] ++ r.events⟩

/-! ## Reading a trace -/

/-- The engine operations. -/
inductive Call where
  | init : Call
  | init_iterateq : Call
  | iterateq_step : Call
  | final : Call
  deriving DecidableEq

/-- The engine operation an event is a call of, if it is one. -/
def Event.call : Event → Option Call
  | .init _ _ _ => some Call.init
  | .init_iterateq => some Call.init_iterateq
  | .iterateq_step => some Call.iterateq_step
  | .final => some Call.final
  | _ => none

/-- The engine calls of a trace, in order. -/
def calls (tr : List Event) : List Call := tr.filterMap Event.call

/-- Whether an event is a printed line. -/
def Event.isLine : Event → Bool
  | .printf _ _ => true
  | _ => false

/-- The lines a trace prints, in order. -/
def lines (tr : List Event) : List Event := tr.filter Event.isLine

/-- The clock values an event reads in the loop condition, if it is one. -/
def Event.read : Event → Option (Numeric × Numeric)
  | .cond t T => some (t, T)
  | _ => none

/-- The pairs `(t, Sim_Time)` read by the loop condition, in order. -/
def condReads (tr : List Event) : List (Numeric × Numeric) := tr.filterMap Event.read

/-- Whether an event belongs to the skeleton of the loop: a read of the
condition or a step. -/
def Event.isLoopStep : Event → Bool
  | .cond _ _ => true
  | .iterateq_step => true
  | _ => false

/-- The clock fields after `k` calls of `iterateq_step` from state `s`. -/
def clockAfter {σ : Type} (E : Engine σ) (s : σ) (k : Nat) : Solver :=
  E.Solverptr (E.iterateq_step^[k] s)

/-- The loop condition `t < Sim_Time` on given clock fields. -/
def below (c : Solver) : Bool := Numeric.lt c.t c.Sim_Time

/-- The heartbeat line that reports step index `iter` and the clock fields
`c`. -/
def heartbeat (iter : Int) (c : Solver) : Event :=
  Event.printf "Status: Step %d | Time: %.2fs / %.2fs | dt: %.4fs\n"
    [Arg.int iter, Arg.num c.t, Arg.num c.Sim_Time, Arg.num c.Tstep]

/-- What iteration `k + 1` of a loop started with counter `iter` in state `s`
does: the condition is read, one step is taken, and the heartbeat is printed
when the incremented counter is divisible by 100. -/
def iteration {σ : Type} (E : Engine σ) (iter : Int) (s : σ) (k : Nat) : List Event :=
  [Event.cond (clockAfter E s k).t (clockAfter E s k).Sim_Time, Event.iterateq_step] ++
    (if (iter + (k + 1 : Nat)).tmod 100 = 0
      then [heartbeat (iter + (k + 1 : Nat)) (clockAfter E s (k + 1))] else [])

/-- The heartbeat after `k` steps of a loop whose counter started at 0. -/
def heartbeatAt {σ : Type} (E : Engine σ) (s : σ) (k : Nat) : Event :=
  heartbeat (k : Int) (clockAfter E s k)

/-- Iteration `k + 1` of a loop whose counter started at 0: the condition is
read, one step is taken, and the heartbeat with step index `k + 1` is printed
exactly when `k + 1` is a multiple of 100. -/
def countedIteration {σ : Type} (E : Engine σ) (s : σ) (k : Nat) : List Event :=
  [Event.cond (clockAfter E s k).t (clockAfter E s k).Sim_Time, Event.iterateq_step] ++
    (if (k + 1) % 100 = 0 then [heartbeatAt E s (k + 1)] else [])

/-- The mode banner, the first line of a run. -/
def modeBanner : Event := Event.printf "Running in Single-Threaded Mode (WASM Standard)\n" []

/-- The echo of the input path. -/
def pathEcho (path : String) : Event := Event.printf "Parameter file: %s\n" [Arg.str path]

/-- The message printed when `init` fails. -/
def failureLine (code : Int) : Event :=
  Event.printf "Initialization failed with code %d. Cleaning up...\n" [Arg.int code]

/-- The banner printed before the loop, with the clock fields read then. -/
def loopBanner (c : Solver) : Event :=
  Event.printf "Status: Starting simulation loop from t=%.2f to %.2f\n"
    [Arg.num c.t, Arg.num c.Sim_Time]

/-- What every run does first: the two opening lines and the call of `init`
with two arguments. -/
def prologue (m : Memory) (par_filename : Ptr) : List Event :=
  [modeBanner, pathEcho (m.load par_filename),
   Event.init 2 (buildArgv m par_filename).1 (buildArgv m par_filename).2]

/-- A test engine whose whole state is the clock: `init` returns `code`,
`init_iterateq` sets the clock to `c0`, a step applies `advance`. -/
def mockEngine (code : Int) (c0 : Solver) (advance : Solver → Solver) : Engine Solver where
  init := fun _ _ _ s => (code, s)
  init_iterateq := fun _ => c0
  iterateq_step := advance
  final := fun s => s
  Solverptr := fun s => s

/-- A step that adds `d` to a finite current time. -/
def advanceBy (d : ℚ) (c : Solver) : Solver :=
  match c.t with
  | .fin q => { c with t := .fin (q + d) }
  | _ => c

/-- A caller's memory with one buffer, the parameter-file path. -/
def callerMemory : Memory := ⟨["/data/run.par"]⟩

/-- An idle clock. -/
def idleClock : Solver := ⟨.fin 0, .fin 0, .fin 0⟩

/-- An engine whose `init` fails with code 3. -/
def failingEngine : Engine Solver := mockEngine 3 idleClock (fun c => c)

/-- An engine whose time stays at 0 below the target 1: a step size of zero. -/
def stalledEngine : Engine Solver := mockEngine 0 ⟨.fin 0, .fin 1, .fin 0⟩ (fun c => c)

/-- An engine whose time has already reached the target when the loop starts. -/
def finishedEngine : Engine Solver := mockEngine 0 ⟨.fin 5, .fin 5, .fin 1⟩ (fun c => c)

/-- An engine that reaches the target 3 in three steps of size 1. -/
def threeStepEngine : Engine Solver := mockEngine 0 ⟨.fin 0, .fin 3, .fin 1⟩ (advanceBy 1)

/-- An engine that reaches the target `N` in `N` steps of size 1. -/
def countingEngine (N : Nat) : Engine Solver :=
  mockEngine 0 ⟨.fin 0, .fin (N : ℚ), .fin 1⟩ (advanceBy 1)

/-- An engine whose step leaves the time at 0 and pulls the target down to it. -/
def retargetEngine : Engine Solver :=
  mockEngine 0 ⟨.fin 0, .fin 1, .fin 0⟩ (fun c => { c with Sim_Time := c.t })

/-- An engine whose current time is a not-a-number when the loop starts. -/
def nanEngine : Engine Solver := mockEngine 0 ⟨.nan, .fin 1, .fin 0⟩ (fun c => c)

/-- An engine whose current time is a not-a-number when the loop starts and
would be set to the target 1 by the first step. -/
def lateEngine : Engine Solver :=
  mockEngine 0 ⟨.nan, .fin 1, .fin 1⟩ (fun c => { c with t := .fin 1 })

end Lisflood

namespace Lisflood

variable {σ : Type}

/-! ## Comparisons of clock values -/

theorem Numeric.ge_eq_false_of_lt {a b : Numeric} (h : Numeric.lt a b = true) :
    Numeric.ge a b = false := by
  cases a <;> cases b <;> simp_all [Numeric.lt, Numeric.ge]

theorem Numeric.lt_eq_false_of_ge {a b : Numeric} (h : Numeric.ge a b = true) :
    Numeric.lt a b = false := by
  cases a <;> cases b <;> simp_all [Numeric.lt, Numeric.ge]

theorem Numeric.ge_of_not_lt {a b : Numeric} (h : Numeric.lt a b = false)
    (ha : a ≠ Numeric.nan) (hb : b ≠ Numeric.nan) : Numeric.ge a b = true := by
  cases a <;> cases b <;> simp_all [Numeric.lt, Numeric.ge]

theorem Numeric.lt_chain {a b c : Numeric} (hab : Numeric.lt a b = true)
    (hbc : Numeric.lt b c = true) : Numeric.lt a c = true := by
  cases a <;> cases b <;> cases c <;> simp_all [Numeric.lt]
  exact hab.trans hbc

/-! ## The `int` counter -/

theorem countsFit_zero (iter : Int) : countsFit iter 0 = true := by
  simp [countsFit]

theorem countsFit_succ (iter : Int) (n : Nat) :
    (decide (iter < 2147483647) && countsFit (iter + 1) n) = countsFit iter (n + 1) := by
  unfold countsFit
  rw [← Bool.decide_and]
  apply decide_eq_decide.mpr
  constructor
  · rintro ⟨h1, h2⟩
    right
    rcases h2 with h2 | h2
    · subst h2; push_cast; omega
    · push_cast; omega
  · intro h
    rcases h with h | h
    · omega
    · push_cast at h
      exact ⟨by omega, by by_cases hn : n = 0
                          · exact Or.inl hn
                          · exact Or.inr (by omega)⟩

theorem countsFit_of_le {n : Nat} (hn : n ≤ 2147483647) : countsFit 0 n = true := by
  unfold countsFit
  simp only [decide_eq_true_eq]
  right
  omega

theorem countsFit_of_gt {n : Nat} (hn : 2147483647 < n) : countsFit 0 n = false := by
  unfold countsFit
  simp only [decide_eq_false_iff_not]
  omega

/-! ## The step loop, iteration by iteration -/

theorem clockAfter_step (E : Engine σ) (s : σ) (k : Nat) :
    clockAfter E (E.iterateq_step s) k = clockAfter E s (k + 1) := by
  simp [clockAfter, Function.iterate_succ_apply]

theorem iteration_step (E : Engine σ) (iter : Int) (s : σ) (k : Nat) :
    iteration E (iter + 1) (E.iterateq_step s) k = iteration E iter s (k + 1) := by
  have h : iter + 1 + ((k + 1 : Nat) : Int) = iter + ((k + 1 + 1 : Nat) : Int) := by
    push_cast; ring
  simp only [iteration, clockAfter_step, h]

/-- The first `n` iterations of the loop, when the condition holds before each
of them: they do `iteration 0`, ..., `iteration (n - 1)`, and the loop goes on
from the state and the counter reached. -/
theorem stepLoop_iterations (E : Engine σ) : ∀ (n fuel : Nat) (iter : Int) (s : σ),
    (∀ k, k < n → below (clockAfter E s k) = true) →
    stepLoop E (n + fuel) iter s =
      ⟨(stepLoop E fuel (iter + (n : Nat)) (E.iterateq_step^[n] s)).exited,
       (stepLoop E fuel (iter + (n : Nat)) (E.iterateq_step^[n] s)).iter,
       countsFit iter n && (stepLoop E fuel (iter + (n : Nat)) (E.iterateq_step^[n] s)).defined,
       (stepLoop E fuel (iter + (n : Nat)) (E.iterateq_step^[n] s)).state,
       (List.range n).flatMap (iteration E iter s) ++
         (stepLoop E fuel (iter + (n : Nat)) (E.iterateq_step^[n] s)).events⟩ := by
  intro n
  induction n with
  | zero =>
    intro fuel iter s _
    simp [countsFit_zero]
  | succ n ih =>
    intro fuel iter s h
    have h0 : Numeric.lt (E.Solverptr s).t (E.Solverptr s).Sim_Time = true := by
      have := h 0 (Nat.succ_pos n)
      simpa [below, clockAfter] using this
    have hrest : ∀ k, k < n → below (clockAfter E (E.iterateq_step s) k) = true := by
      intro k hk
      rw [clockAfter_step]
      exact h (k + 1) (Nat.succ_lt_succ hk)
    have hfuel : n + 1 + fuel = (n + fuel) + 1 := by omega
    have hc : iter + 1 + (n : Nat) = iter + ((n + 1 : Nat) : Int) := by
      push_cast; ring
    rw [hfuel, stepLoop]
    simp only [h0, if_true]
    rw [ih fuel (iter + 1) (E.iterateq_step s) hrest]
    simp only [hc, ← Function.iterate_succ_apply, ← Bool.and_assoc, countsFit_succ]
    congr 1
    rw [List.range_succ_eq_map, List.flatMap_cons, List.flatMap_map]
    have hfun : iteration E (iter + 1) (E.iterateq_step s)
        = (fun k => iteration E iter s (k + 1)) := funext (iteration_step E iter s)
    have hzero : iteration E iter s 0
        = [Event.cond (E.Solverptr s).t (E.Solverptr s).Sim_Time, Event.iterateq_step] ++
          (if (iter + 1).tmod 100 = 0
            then [Event.printf "Status: Step %d | Time: %.2fs / %.2fs | dt: %.4fs\n"
              [Arg.int (iter + 1), Arg.num (E.Solverptr (E.iterateq_step s)).t,
               Arg.num (E.Solverptr (E.iterateq_step s)).Sim_Time,
               Arg.num (E.Solverptr (E.iterateq_step s)).Tstep]] else []) := by
      simp [iteration, clockAfter, heartbeat]
    rw [hfun, hzero]
    simp only [List.append_assoc, Nat.succ_eq_add_one]

/-- The loop leaves after exactly `n` iterations when its condition holds
before each of the first `n` steps and fails after them. -/
theorem stepLoop_exits (E : Engine σ) (n fuel : Nat) (iter : Int) (s : σ)
    (hbefore : ∀ k, k < n → below (clockAfter E s k) = true)
    (hat : below (clockAfter E s n) = false) (hfuel : n < fuel) :
    stepLoop E fuel iter s =
      ⟨true, iter + (n : Nat), countsFit iter n, E.iterateq_step^[n] s,
       (List.range n).flatMap (iteration E iter s) ++
         [Event.cond (clockAfter E s n).t (clockAfter E s n).Sim_Time]⟩ := by
  obtain ⟨f, rfl⟩ : ∃ f, fuel = n + (f + 1) := ⟨fuel - n - 1, by omega⟩
  have hlast : stepLoop E (f + 1) (iter + (n : Nat)) (E.iterateq_step^[n] s)
      = ⟨true, iter + (n : Nat), true, E.iterateq_step^[n] s,
         [Event.cond (clockAfter E s n).t (clockAfter E s n).Sim_Time]⟩ := by
    have hc : Numeric.lt (E.Solverptr (E.iterateq_step^[n] s)).t
        (E.Solverptr (E.iterateq_step^[n] s)).Sim_Time = false := by
      simpa [below, clockAfter] using hat
    rw [stepLoop]
    simp [hc, clockAfter]
  rw [stepLoop_iterations E n (f + 1) iter s hbefore, hlast]
  simp

/-- The loop is still running after `fuel` iterations when its condition holds
before each of them. -/
theorem stepLoop_running (E : Engine σ) (fuel : Nat) (iter : Int) (s : σ)
    (hbefore : ∀ k, k < fuel → below (clockAfter E s k) = true) :
    stepLoop E fuel iter s =
      ⟨false, iter + (fuel : Nat), countsFit iter fuel, E.iterateq_step^[fuel] s,
       (List.range fuel).flatMap (iteration E iter s)⟩ := by
  have h := stepLoop_iterations E fuel 0 iter s hbefore
  simpa [stepLoop] using h

/-- Within `fuel` condition reads the loop either leaves at a first read that
fails, or all reads hold. -/
theorem stepLoop_cases (E : Engine σ) (fuel : Nat) (s : σ) :
    (∃ n, n < fuel ∧ (∀ k, k < n → below (clockAfter E s k) = true) ∧
        below (clockAfter E s n) = false) ∨
      (∀ k, k < fuel → below (clockAfter E s k) = true) := by
  by_cases h : ∀ k, k < fuel → below (clockAfter E s k) = true
  · exact Or.inr h
  · left
    have hex : ∃ n, n < fuel ∧ below (clockAfter E s n) = false := by
      by_contra hcon
      apply h
      intro k hk
      by_contra hb
      exact hcon ⟨k, hk, by simpa using hb⟩
    refine ⟨Nat.find hex, (Nat.find_spec hex).1, ?_, (Nat.find_spec hex).2⟩
    intro k hk
    have hmin := Nat.find_min hex hk
    by_contra hb
    exact hmin ⟨lt_trans hk (Nat.find_spec hex).1, by simpa using hb⟩

/-- A read of the condition that fails is preceded by a first one. -/
theorem first_exit (E : Engine σ) (s : σ) (n : Nat) (hat : below (clockAfter E s n) = false) :
    ∃ n0, n0 ≤ n ∧ (∀ k, k < n0 → below (clockAfter E s k) = true) ∧
      below (clockAfter E s n0) = false := by
  rcases stepLoop_cases E (n + 1) s with ⟨n0, h0, hb, ha⟩ | hall
  · exact ⟨n0, by omega, hb, ha⟩
  · have := hall n (Nat.lt_succ_self n)
    simp [hat] at this

/-! ## Reading the trace of the loop -/

theorem flatMap_range_succ {α : Type} (f : Nat → List α) (n : Nat) :
    (List.range (n + 1)).flatMap f = (List.range n).flatMap f ++ f n := by
  simp [List.range_succ, List.flatMap_append]

theorem calls_append (a b : List Event) : calls (a ++ b) = calls a ++ calls b := by
  simp [calls, List.filterMap_append]

theorem lines_append (a b : List Event) : lines (a ++ b) = lines a ++ lines b := by
  simp [lines, List.filter_append]

theorem condReads_append (a b : List Event) : condReads (a ++ b) = condReads a ++ condReads b := by
  simp [condReads, List.filterMap_append]

theorem calls_iteration (E : Engine σ) (iter : Int) (s : σ) (k : Nat) :
    calls (iteration E iter s k) = [Call.iterateq_step] := by
  unfold iteration
  split <;> simp [calls, Event.call, heartbeat]

theorem calls_iterations (E : Engine σ) (iter : Int) (s : σ) (n : Nat) :
    calls ((List.range n).flatMap (iteration E iter s)) = List.replicate n Call.iterateq_step := by
  induction n with
  | zero => simp [calls]
  | succ n ih =>
    rw [flatMap_range_succ, calls_append, ih, calls_iteration, List.replicate_succ']

theorem condReads_iteration (E : Engine σ) (iter : Int) (s : σ) (k : Nat) :
    condReads (iteration E iter s k) = [((clockAfter E s k).t, (clockAfter E s k).Sim_Time)] := by
  unfold iteration
  split <;> simp [condReads, Event.read, heartbeat]

theorem condReads_iterations (E : Engine σ) (iter : Int) (s : σ) (n : Nat) :
    condReads ((List.range n).flatMap (iteration E iter s))
      = (List.range n).map (fun k => ((clockAfter E s k).t, (clockAfter E s k).Sim_Time)) := by
  induction n with
  | zero => simp [condReads]
  | succ n ih =>
    rw [flatMap_range_succ, condReads_append, ih, condReads_iteration, List.range_succ,
      List.map_append, List.map_singleton]

theorem loopSteps_iterations (E : Engine σ) (iter : Int) (s : σ) (n : Nat) :
    ((List.range n).flatMap (iteration E iter s)).filter Event.isLoopStep
      = (List.range n).flatMap (fun k =>
          [Event.cond (clockAfter E s k).t (clockAfter E s k).Sim_Time, Event.iterateq_step]) := by
  induction n with
  | zero => simp
  | succ n ih =>
    rw [flatMap_range_succ, flatMap_range_succ, List.filter_append, ih]
    congr 1
    unfold iteration
    split <;> simp [Event.isLoopStep, heartbeat]

theorem tmod_hundred (k : Nat) :
    ((0 : Int) + ((k + 1 : Nat) : Int)).tmod 100 = 0 ↔ (k + 1) % 100 = 0 := by
  rw [zero_add, Int.tmod_eq_emod (by omega) (by omega)]
  omega

/-- The lines of one iteration of a loop whose counter started at 0: the
heartbeat if `k + 1` is a multiple of 100, nothing otherwise. -/
theorem lines_iteration (E : Engine σ) (s : σ) (k : Nat) :
    lines (iteration E 0 s k) = if (k + 1) % 100 = 0 then [heartbeatAt E s (k + 1)] else [] := by
  unfold iteration
  by_cases hd : (k + 1) % 100 = 0
  · rw [if_pos ((tmod_hundred k).mpr hd), if_pos hd, zero_add]
    simp [lines, Event.isLine, heartbeat, heartbeatAt]
  · rw [if_neg (fun h => hd ((tmod_hundred k).mp h)), if_neg hd]
    simp [lines, Event.isLine]

/-- The lines of the first `n` iterations of a loop whose counter starts at 0:
the heartbeats after 100, 200, ... steps. -/
theorem lines_iterations (E : Engine σ) (s : σ) (n : Nat) :
    lines ((List.range n).flatMap (iteration E 0 s))
      = (List.range (n / 100)).map (fun j => heartbeatAt E s (100 * (j + 1))) := by
  induction n with
  | zero => simp [lines]
  | succ n ih =>
    rw [flatMap_range_succ, lines_append, ih, lines_iteration E s n]
    by_cases hd : (n + 1) % 100 = 0
    · have hq : (n + 1) / 100 = n / 100 + 1 := by omega
      have hv : 100 * (n / 100 + 1) = n + 1 := by omega
      rw [if_pos hd, hq, List.range_succ, List.map_append, List.map_singleton, hv]
    · have hq : (n + 1) / 100 = n / 100 := by omega
      rw [if_neg hd, hq, List.append_nil]

/-! ## The three ways a run can go -/

/-- A run whose `init` fails. -/
theorem run_failed (E : Engine σ) (fuel : Nat) (m : Memory) (p : Ptr) (s : σ)
    (hne : (callInit E m p s).1 ≠ 0) :
    run_lisflood E fuel m p s =
      ⟨some (callInit E m p s).1, none, true, E.final (callInit E m p s).2,
       prologue m p ++ [failureLine (callInit E m p s).1, Event.final]⟩ := by
  simp [run_lisflood, hne, prologue, modeBanner, pathEcho, failureLine]

/-- A run whose loop leaves after `n` iterations. -/
theorem run_exited (E : Engine σ) (n fuel : Nat) (m : Memory) (p : Ptr) (s : σ)
    (hinit : (callInit E m p s).1 = 0)
    (hbefore : ∀ k, k < n → below (clockAfter E (loopStart E m p s) k) = true)
    (hat : below (clockAfter E (loopStart E m p s) n) = false) (hfuel : n < fuel) :
    run_lisflood E fuel m p s =
      ⟨some 0, some (n : Int), countsFit 0 n, E.final (E.iterateq_step^[n] (loopStart E m p s)),
       prologue m p ++ [Event.init_iterateq, loopBanner (E.Solverptr (loopStart E m p s))] ++
         ((List.range n).flatMap (iteration E 0 (loopStart E m p s)) ++
           [Event.cond (clockAfter E (loopStart E m p s) n).t
             (clockAfter E (loopStart E m p s) n).Sim_Time]) ++ [Event.final]⟩ := by
  have hl := stepLoop_exits E n fuel 0 (loopStart E m p s) hbefore hat hfuel
  unfold loopStart at hl
  simp [run_lisflood, hinit, hl, prologue, modeBanner, pathEcho, loopBanner, loopStart]

/-- A run whose loop is still running when the fuel is used up. -/
theorem run_running (E : Engine σ) (fuel : Nat) (m : Memory) (p : Ptr) (s : σ)
    (hinit : (callInit E m p s).1 = 0)
    (hbefore : ∀ k, k < fuel → below (clockAfter E (loopStart E m p s) k) = true) :
    run_lisflood E fuel m p s =
      ⟨none, some (fuel : Int), countsFit 0 fuel, E.iterateq_step^[fuel] (loopStart E m p s),
       prologue m p ++ [Event.init_iterateq, loopBanner (E.Solverptr (loopStart E m p s))] ++
         (List.range fuel).flatMap (iteration E 0 (loopStart E m p s))⟩ := by
  have hl := stepLoop_running E fuel 0 (loopStart E m p s) hbefore
  unfold loopStart at hl
  simp [run_lisflood, hinit, hl, prologue, modeBanner, pathEcho, loopBanner, loopStart]

theorem calls_prologue (m : Memory) (p : Ptr) : calls (prologue m p) = [Call.init] := by
  simp [calls, prologue, modeBanner, pathEcho, Event.call]

theorem condReads_prologue (m : Memory) (p : Ptr) : condReads (prologue m p) = [] := by
  simp [condReads, prologue, modeBanner, pathEcho, Event.read]

theorem lines_prologue (m : Memory) (p : Ptr) :
    lines (prologue m p) = [modeBanner, pathEcho (m.load p)] := by
  simp [lines, prologue, modeBanner, pathEcho, Event.isLine]

/-- The engine calls of a run whose loop leaves after `n` iterations. -/
theorem calls_run_exited (E : Engine σ) (n fuel : Nat) (m : Memory) (p : Ptr) (s : σ)
    (hinit : (callInit E m p s).1 = 0)
    (hbefore : ∀ k, k < n → below (clockAfter E (loopStart E m p s) k) = true)
    (hat : below (clockAfter E (loopStart E m p s) n) = false) (hfuel : n < fuel) :
    calls (run_lisflood E fuel m p s).trace =
      [Call.init, Call.init_iterateq] ++ List.replicate n Call.iterateq_step ++ [Call.final] := by
  rw [run_exited E n fuel m p s hinit hbefore hat hfuel]
  simp only [calls_append, calls_prologue, calls_iterations]
  simp [calls, Event.call, loopBanner]

/-- The engine calls of a run whose loop is still running. -/
theorem calls_run_running (E : Engine σ) (fuel : Nat) (m : Memory) (p : Ptr) (s : σ)
    (hinit : (callInit E m p s).1 = 0)
    (hbefore : ∀ k, k < fuel → below (clockAfter E (loopStart E m p s) k) = true) :
    calls (run_lisflood E fuel m p s).trace =
      [Call.init, Call.init_iterateq] ++ List.replicate fuel Call.iterateq_step := by
  rw [run_running E fuel m p s hinit hbefore]
  simp only [calls_append, calls_prologue, calls_iterations]
  simp [calls, Event.call, loopBanner]

/-- The engine calls of a run whose `init` fails. -/
theorem calls_run_failed (E : Engine σ) (fuel : Nat) (m : Memory) (p : Ptr) (s : σ)
    (hne : (callInit E m p s).1 ≠ 0) :
    calls (run_lisflood E fuel m p s).trace = [Call.init, Call.final] := by
  rw [run_failed E fuel m p s hne]
  simp only [calls_append, calls_prologue]
  simp [calls, Event.call, failureLine]

/-! ## Test engines, step by step -/

theorem iterate_advanceBy (d q : ℚ) (T dt : Numeric) (k : Nat) :
    (advanceBy d)^[k] ⟨.fin q, T, dt⟩ = ⟨.fin (q + k * d), T, dt⟩ := by
  induction k with
  | zero => simp
  | succ k ih =>
    rw [Function.iterate_succ_apply', ih]
    simp only [advanceBy, Nat.cast_succ]
    congr 2
    ring

theorem iterate_same {α : Type} (k : Nat) (a : α) : (fun c : α => c)^[k] a = a := by
  induction k with
  | zero => rfl
  | succ k ih => rw [Function.iterate_succ_apply', ih]

theorem clockAfter_mock_advanceBy (code : Int) (d q : ℚ) (T dt : Numeric) (s : Solver) (k : Nat) :
    clockAfter (mockEngine code ⟨.fin q, T, dt⟩ (advanceBy d))
      (loopStart (mockEngine code ⟨.fin q, T, dt⟩ (advanceBy d)) callerMemory 0 s) k
      = ⟨.fin (q + k * d), T, dt⟩ := by
  simp [clockAfter, loopStart, mockEngine, iterate_advanceBy]

theorem clockAfter_mock_same (code : Int) (c s : Solver) (k : Nat) :
    clockAfter (mockEngine code c (fun c => c))
      (loopStart (mockEngine code c (fun c => c)) callerMemory 0 s) k = c := by
  simp [clockAfter, loopStart, mockEngine, iterate_same]

theorem stalled_below (k : Nat) : below (clockAfter stalledEngine
    (loopStart stalledEngine callerMemory 0 idleClock) k) = true := by
  unfold stalledEngine
  rw [clockAfter_mock_same]
  simp [below, Numeric.lt]

theorem threeStep_before : ∀ k, k < 3 → below (clockAfter threeStepEngine
    (loopStart threeStepEngine callerMemory 0 idleClock) k) = true := by
  intro k hk
  unfold threeStepEngine
  rw [clockAfter_mock_advanceBy]
  have : (k : ℚ) < 3 := by exact_mod_cast hk
  simpa [below, Numeric.lt] using this

theorem threeStep_at : below (clockAfter threeStepEngine
    (loopStart threeStepEngine callerMemory 0 idleClock) 3) = false := by
  unfold threeStepEngine
  rw [clockAfter_mock_advanceBy]
  simp [below, Numeric.lt]

theorem counting_before (N : Nat) : ∀ k, k < N → below (clockAfter (countingEngine N)
    (loopStart (countingEngine N) callerMemory 0 idleClock) k) = true := by
  intro k hk
  unfold countingEngine
  rw [clockAfter_mock_advanceBy]
  have : (k : ℚ) < N := by exact_mod_cast hk
  simpa [below, Numeric.lt] using this

theorem counting_at (N : Nat) : below (clockAfter (countingEngine N)
    (loopStart (countingEngine N) callerMemory 0 idleClock) N) = false := by
  unfold countingEngine
  rw [clockAfter_mock_advanceBy]
  simp [below, Numeric.lt]

theorem counting_clock (N k : Nat) : clockAfter (countingEngine N)
    (loopStart (countingEngine N) callerMemory 0 idleClock) k
      = ⟨.fin (k : ℚ), .fin (N : ℚ), .fin 1⟩ := by
  unfold countingEngine
  rw [clockAfter_mock_advanceBy]
  simp

/-! ## Iterations of a loop whose counter starts at 0 -/

theorem iteration_eq_counted (E : Engine σ) (s : σ) (k : Nat) :
    iteration E 0 s k = countedIteration E s k := by
  unfold iteration countedIteration
  by_cases hd : (k + 1) % 100 = 0
  · rw [if_pos ((tmod_hundred k).mpr hd), if_pos hd, zero_add]
    rfl
  · rw [if_neg (fun h => hd ((tmod_hundred k).mp h)), if_neg hd]

theorem iterations_eq_counted (E : Engine σ) (s : σ) (n : Nat) :
    (List.range n).flatMap (iteration E 0 s) = (List.range n).flatMap (countedIteration E s) := by
  induction n with
  | zero => simp
  | succ n ih =>
    rw [flatMap_range_succ, flatMap_range_succ, ih, iteration_eq_counted E s n]

theorem Memory.load_alloc_old (m : Memory) (c : String) (q : Ptr) (h : q < m.bufs.length) :
    (m.alloc c).2.load q = m.load q := by
  simp only [Memory.alloc, Memory.load]
  exact List.getD_append m.bufs [c] "" q h

theorem Memory.load_alloc_new (m : Memory) (c : String) :
    (m.alloc c).2.load (m.alloc c).1 = c := by
  simp only [Memory.alloc, Memory.load]
  rw [List.getD_append_right m.bufs [c] "" m.bufs.length (le_refl _)]
  simp

theorem Memory.length_alloc (m : Memory) (c : String) :
    (m.alloc c).2.bufs.length = m.bufs.length + 1 := by
  simp [Memory.alloc]

theorem Memory.load_store_same (m : Memory) (p : Ptr) (c : String) (h : p < m.bufs.length) :
    (m.store p c).load p = c := by
  simp [Memory.store, Memory.load, List.getD_eq_getElem?_getD, List.getElem?_set_self h]

theorem Memory.load_store_other (m : Memory) (p q : Ptr) (c : String) (h : p ≠ q) :
    (m.store p c).load q = m.load q := by
  simp [Memory.store, Memory.load, List.getD_eq_getElem?_getD, List.getElem?_set_ne h]

theorem buildArgv_fst (m : Memory) (p : Ptr) :
    (buildArgv m p).1 = [m.bufs.length, m.bufs.length + 1] := by
  simp [buildArgv, Memory.alloc]

theorem buildArgv_snd (m : Memory) (p : Ptr) :
    (buildArgv m p).2
      = ((m.alloc "lisflood").2.alloc ((m.alloc "lisflood").2.load p)).2 := rfl

theorem trace_starts_with_prologue (E : Engine σ) (fuel : Nat) (m : Memory) (p : Ptr) (s : σ) :
    ∃ rest, (run_lisflood E fuel m p s).trace = prologue m p ++ rest := by
  by_cases hinit : (callInit E m p s).1 = 0
  · rcases stepLoop_cases E fuel (loopStart E m p s) with ⟨n, hn, hb, ha⟩ | hall
    · rw [run_exited E n fuel m p s hinit hb ha hn]
      exact ⟨[Event.init_iterateq, loopBanner (E.Solverptr (loopStart E m p s))] ++
        ((List.range n).flatMap (iteration E 0 (loopStart E m p s)) ++
          [Event.cond (clockAfter E (loopStart E m p s) n).t
            (clockAfter E (loopStart E m p s) n).Sim_Time]) ++ [Event.final],
        by simp only [List.append_assoc]⟩
    · rw [run_running E fuel m p s hinit hall]
      exact ⟨[Event.init_iterateq, loopBanner (E.Solverptr (loopStart E m p s))] ++
        (List.range fuel).flatMap (iteration E 0 (loopStart E m p s)),
        by simp only [List.append_assoc]⟩
  · rw [run_failed E fuel m p s hinit]
    exact ⟨_, rfl⟩

theorem count_init_run (E : Engine σ) (fuel : Nat) (m : Memory) (p : Ptr) (s : σ) :
    (calls (run_lisflood E fuel m p s).trace).count Call.init = 1 := by
  by_cases hinit : (callInit E m p s).1 = 0
  · rcases stepLoop_cases E fuel (loopStart E m p s) with ⟨n, hn, hb, ha⟩ | hall
    · rw [calls_run_exited E n fuel m p s hinit hb ha hn]
      simp [List.count_replicate]
    · rw [calls_run_running E fuel m p s hinit hall]
      simp [List.count_replicate]
  · rw [calls_run_failed E fuel m p s hinit]
    decide

/-! ## The lines of a run -/

theorem lines_run_failed (E : Engine σ) (fuel : Nat) (m : Memory) (p : Ptr) (s : σ)
    (hne : (callInit E m p s).1 ≠ 0) :
    lines (run_lisflood E fuel m p s).trace
      = [modeBanner, pathEcho (m.load p), failureLine (callInit E m p s).1] := by
  rw [run_failed E fuel m p s hne]
  simp only [lines_append, lines_prologue]
  simp [lines, Event.isLine, failureLine]

theorem lines_run_exited (E : Engine σ) (n fuel : Nat) (m : Memory) (p : Ptr) (s : σ)
    (hinit : (callInit E m p s).1 = 0)
    (hbefore : ∀ k, k < n → below (clockAfter E (loopStart E m p s) k) = true)
    (hat : below (clockAfter E (loopStart E m p s) n) = false) (hfuel : n < fuel) :
    lines (run_lisflood E fuel m p s).trace
      = [modeBanner, pathEcho (m.load p), loopBanner (E.Solverptr (loopStart E m p s))] ++
        lines ((List.range n).flatMap (iteration E 0 (loopStart E m p s))) := by
  rw [run_exited E n fuel m p s hinit hbefore hat hfuel]
  simp only [lines_append, lines_prologue]
  simp [lines, Event.isLine, loopBanner]

theorem lines_run_running (E : Engine σ) (fuel : Nat) (m : Memory) (p : Ptr) (s : σ)
    (hinit : (callInit E m p s).1 = 0)
    (hbefore : ∀ k, k < fuel → below (clockAfter E (loopStart E m p s) k) = true) :
    lines (run_lisflood E fuel m p s).trace
      = [modeBanner, pathEcho (m.load p), loopBanner (E.Solverptr (loopStart E m p s))] ++
        lines ((List.range fuel).flatMap (iteration E 0 (loopStart E m p s))) := by
  rw [run_running E fuel m p s hinit hbefore]
  simp only [lines_append, lines_prologue]
  simp [lines, Event.isLine, loopBanner]

/-! ## Summaries that do not spell the trace out -/

theorem count_step_replicate (n : Nat) :
    (List.replicate n Call.iterateq_step).count Call.iterateq_step = n := by
  simp [List.count_replicate]

theorem ret_run_exited (E : Engine σ) (n fuel : Nat) (m : Memory) (p : Ptr) (s : σ)
    (hinit : (callInit E m p s).1 = 0)
    (hbefore : ∀ k, k < n → below (clockAfter E (loopStart E m p s) k) = true)
    (hat : below (clockAfter E (loopStart E m p s) n) = false) (hfuel : n < fuel) :
    (run_lisflood E fuel m p s).ret = some 0 := by
  rw [run_exited E n fuel m p s hinit hbefore hat hfuel]

theorem count_steps_run_running (E : Engine σ) (fuel : Nat) (m : Memory) (p : Ptr) (s : σ)
    (hinit : (callInit E m p s).1 = 0)
    (hbefore : ∀ k, k < fuel → below (clockAfter E (loopStart E m p s) k) = true) :
    (calls (run_lisflood E fuel m p s).trace).count Call.iterateq_step = fuel := by
  rw [calls_run_running E fuel m p s hinit hbefore]
  simp only [List.count_append, count_step_replicate]
  simp

theorem count_steps_run_exited (E : Engine σ) (n fuel : Nat) (m : Memory) (p : Ptr) (s : σ)
    (hinit : (callInit E m p s).1 = 0)
    (hbefore : ∀ k, k < n → below (clockAfter E (loopStart E m p s) k) = true)
    (hat : below (clockAfter E (loopStart E m p s) n) = false) (hfuel : n < fuel) :
    (calls (run_lisflood E fuel m p s).trace).count Call.iterateq_step = n := by
  rw [calls_run_exited E n fuel m p s hinit hbefore hat hfuel]
  simp only [List.count_append, count_step_replicate]
  simp

/-- Nothing before the closing `final` of a run that exits is a call of
`final`. -/
theorem final_not_before_exit (E : Engine σ) (n : Nat) (m : Memory) (p : Ptr) (s : σ) :
    Event.final ∉ prologue m p ++
      [Event.init_iterateq, loopBanner (E.Solverptr (loopStart E m p s))] ++
      ((List.range n).flatMap (iteration E 0 (loopStart E m p s)) ++
        [Event.cond (clockAfter E (loopStart E m p s) n).t
          (clockAfter E (loopStart E m p s) n).Sim_Time]) := by
  intro hmem
  have hc : Call.final ∈ calls (prologue m p ++
      [Event.init_iterateq, loopBanner (E.Solverptr (loopStart E m p s))] ++
      ((List.range n).flatMap (iteration E 0 (loopStart E m p s)) ++
        [Event.cond (clockAfter E (loopStart E m p s) n).t
          (clockAfter E (loopStart E m p s) n).Sim_Time])) := by
    unfold calls
    rw [List.mem_filterMap]
    exact ⟨Event.final, hmem, rfl⟩
  simp only [calls_append, calls_prologue, calls_iterations] at hc
  simp [calls, Event.call, loopBanner, List.mem_replicate] at hc

/-! ## The claims -/

/-- C1: when `init` returns a code `E` other than 0, the run returns exactly
`E`, `final` is called exactly once, and neither `init_iterateq` nor
`iterateq_step` is called: the engine calls are `init` then `final`, and the
loop condition is never read. -/
theorem init_failure_returns_code (E : Engine σ) (fuel : Nat) (m : Memory) (par_filename : Ptr)
    (s : σ) (code : Int) (hcode : (callInit E m par_filename s).1 = code) (hne : code ≠ 0) :
    (run_lisflood E fuel m par_filename s).ret = some code ∧
    (calls (run_lisflood E fuel m par_filename s).trace).count Call.final = 1 ∧
    (calls (run_lisflood E fuel m par_filename s).trace).count Call.init_iterateq = 0 ∧
    (calls (run_lisflood E fuel m par_filename s).trace).count Call.iterateq_step = 0 ∧
    calls (run_lisflood E fuel m par_filename s).trace = [Call.init, Call.final] ∧
    condReads (run_lisflood E fuel m par_filename s).trace = [] := by
  subst hcode
  have hc := calls_run_failed E fuel m par_filename s hne
  refine ⟨?_, ?_, ?_, ?_, hc, ?_⟩
  · rw [run_failed E fuel m par_filename s hne]
  · rw [hc]; decide
  · rw [hc]; decide
  · rw [hc]; decide
  · rw [run_failed E fuel m par_filename s hne, condReads_append, condReads_prologue]
    simp [condReads, Event.read, failureLine]

/-- C1 at an engine whose `init` returns 3: the run returns 3 after one
`final` and no step. -/
theorem init_failure_returns_code_witness :
    (callInit failingEngine callerMemory 0 idleClock).1 = 3 ∧ (3 : Int) ≠ 0 ∧
    (run_lisflood failingEngine 10 callerMemory 0 idleClock).ret = some 3 ∧
    (calls (run_lisflood failingEngine 10 callerMemory 0 idleClock).trace).count Call.final = 1 ∧
    (calls (run_lisflood failingEngine 10 callerMemory 0 idleClock).trace).count
      Call.init_iterateq = 0 ∧
    (calls (run_lisflood failingEngine 10 callerMemory 0 idleClock).trace).count
      Call.iterateq_step = 0 ∧
    calls (run_lisflood failingEngine 10 callerMemory 0 idleClock).trace
      = [Call.init, Call.final] ∧
    condReads (run_lisflood failingEngine 10 callerMemory 0 idleClock).trace = [] :=
  ⟨rfl, by decide,
    init_failure_returns_code failingEngine 10 callerMemory 0 idleClock 3 rfl (by decide)⟩

/-- C2 as stated fails: the stalled engine's `init` returns 0, yet however
long the run is followed it has not returned and `final` has not been called. -/
theorem success_run_need_not_return :
    (callInit stalledEngine callerMemory 0 idleClock).1 = 0 ∧
    ¬ ∃ fuel, (run_lisflood stalledEngine fuel callerMemory 0 idleClock).ret ≠ none ∨
      Call.final ∈ calls (run_lisflood stalledEngine fuel callerMemory 0 idleClock).trace := by
  refine ⟨rfl, ?_⟩
  rintro ⟨fuel, h⟩
  have hrun := run_running stalledEngine fuel callerMemory 0 idleClock rfl
    (fun k _ => stalled_below k)
  have hcalls := calls_run_running stalledEngine fuel callerMemory 0 idleClock rfl
    (fun k _ => stalled_below k)
  rcases h with h | h
  · exact h (by rw [hrun])
  · rw [hcalls] at h
    simp [List.mem_replicate] at h

/-- C2, amended: when `init` returns 0 and the loop condition fails after some
number `n` of steps, every run followed for more than `n` condition reads has
returned 0 and has called `final` exactly once. When `init` returns 0 and the
loop condition never fails, the run, however long it is followed, has not
returned and has not called `final`. -/
theorem success_returns_zero_once_loop_exits (E : Engine σ) (m : Memory) (par_filename : Ptr)
    (s : σ) (hinit : (callInit E m par_filename s).1 = 0) :
    (∀ n, below (clockAfter E (loopStart E m par_filename s) n) = false →
      ∀ fuel, n < fuel →
        (run_lisflood E fuel m par_filename s).ret = some 0 ∧
        (calls (run_lisflood E fuel m par_filename s).trace).count Call.final = 1) ∧
    ((∀ k, below (clockAfter E (loopStart E m par_filename s) k) = true) →
      ∀ fuel,
        (run_lisflood E fuel m par_filename s).ret = none ∧
        Call.final ∉ calls (run_lisflood E fuel m par_filename s).trace) := by
  refine ⟨?_, ?_⟩
  · intro n hexit fuel hfuel
    obtain ⟨n0, hle, hbefore, hat⟩ := first_exit E (loopStart E m par_filename s) n hexit
    have hf : n0 < fuel := lt_of_le_of_lt hle hfuel
    refine ⟨?_, ?_⟩
    · rw [run_exited E n0 fuel m par_filename s hinit hbefore hat hf]
    · rw [calls_run_exited E n0 fuel m par_filename s hinit hbefore hat hf]
      simp [List.count_replicate]
  · intro hall fuel
    refine ⟨?_, ?_⟩
    · rw [run_running E fuel m par_filename s hinit (fun k _ => hall k)]
    · rw [calls_run_running E fuel m par_filename s hinit (fun k _ => hall k)]
      simp [List.mem_replicate]

/-- C2, amended, at the engine that needs three steps (followed for ten
condition reads, the run has returned 0 after one `final`) and at the stalled
engine (followed for ten condition reads, the run has not returned and has not
called `final`). -/
theorem success_returns_zero_once_loop_exits_witness :
    ((callInit threeStepEngine callerMemory 0 idleClock).1 = 0 ∧
      below (clockAfter threeStepEngine (loopStart threeStepEngine callerMemory 0 idleClock) 3)
        = false ∧
      (run_lisflood threeStepEngine 10 callerMemory 0 idleClock).ret = some 0 ∧
      (calls (run_lisflood threeStepEngine 10 callerMemory 0 idleClock).trace).count Call.final
        = 1) ∧
    ((callInit stalledEngine callerMemory 0 idleClock).1 = 0 ∧
      (run_lisflood stalledEngine 10 callerMemory 0 idleClock).ret = none ∧
      Call.final ∉ calls (run_lisflood stalledEngine 10 callerMemory 0 idleClock).trace) :=
  ⟨⟨rfl, threeStep_at,
      (success_returns_zero_once_loop_exits threeStepEngine callerMemory 0 idleClock rfl).1 3
        threeStep_at 10 (by decide)⟩,
    ⟨rfl,
      (success_returns_zero_once_loop_exits stalledEngine callerMemory 0 idleClock rfl).2
        stalled_below 10⟩⟩

/-- C3 as stated fails: the stalled engine's `init` returns 0, yet however
long the run is followed its engine calls are never `init`, `init_iterateq`,
some steps and a closing `final`: `final` is not called. -/
theorem unfinished_run_has_no_final :
    (callInit stalledEngine callerMemory 0 idleClock).1 = 0 ∧
    ¬ ∃ fuel n, calls (run_lisflood stalledEngine fuel callerMemory 0 idleClock).trace =
      [Call.init, Call.init_iterateq] ++ List.replicate n Call.iterateq_step ++ [Call.final] := by
  refine ⟨rfl, ?_⟩
  rintro ⟨fuel, n, h⟩
  have hcalls := calls_run_running stalledEngine fuel callerMemory 0 idleClock rfl
    (fun k _ => stalled_below k)
  have hmem : Call.final ∈ calls (run_lisflood stalledEngine fuel callerMemory 0 idleClock).trace := by
    rw [h]; simp
  rw [hcalls] at hmem
  simp [List.mem_replicate] at hmem

/-- C3, amended: when `init` returns a code other than 0, the run returns that
code and its engine calls are `init`, `final`. When `init` returns 0 and the
loop condition fails after some number `n` of steps, every run followed for
more than `n` condition reads has returned 0 and its engine calls are `init`,
`init_iterateq`, some number of `iterateq_step`, `final`. In both cases the
run ends with its one call of `final`: no engine call, clock read or printed
line follows it. When `init` returns 0 and the loop condition has held at each
of the `fuel` reads followed, the run has not returned and its engine calls are
`init`, `init_iterateq` and `fuel` steps, without `final`. -/
theorem call_sequence_shape (E : Engine σ) (m : Memory) (par_filename : Ptr) (s : σ) :
    ((callInit E m par_filename s).1 ≠ 0 → ∀ fuel,
      (run_lisflood E fuel m par_filename s).ret = some (callInit E m par_filename s).1 ∧
      calls (run_lisflood E fuel m par_filename s).trace = [Call.init, Call.final] ∧
      ∃ before, (run_lisflood E fuel m par_filename s).trace = before ++ [Event.final] ∧
        Event.final ∉ before) ∧
    ((callInit E m par_filename s).1 = 0 →
      ∀ n, below (clockAfter E (loopStart E m par_filename s) n) = false →
      ∃ n0, n0 ≤ n ∧ ∀ fuel, n < fuel →
        (run_lisflood E fuel m par_filename s).ret = some 0 ∧
        calls (run_lisflood E fuel m par_filename s).trace =
          [Call.init, Call.init_iterateq] ++ List.replicate n0 Call.iterateq_step ++
            [Call.final] ∧
        ∃ before, (run_lisflood E fuel m par_filename s).trace = before ++ [Event.final] ∧
          Event.final ∉ before) ∧
    ((callInit E m par_filename s).1 = 0 → ∀ fuel,
      (∀ k, k < fuel → below (clockAfter E (loopStart E m par_filename s) k) = true) →
      (run_lisflood E fuel m par_filename s).ret = none ∧
      calls (run_lisflood E fuel m par_filename s).trace =
        [Call.init, Call.init_iterateq] ++ List.replicate fuel Call.iterateq_step) := by
  refine ⟨?_, ?_, ?_⟩
  · intro hne fuel
    have hrun := run_failed E fuel m par_filename s hne
    refine ⟨by rw [hrun], calls_run_failed E fuel m par_filename s hne,
      prologue m par_filename ++ [failureLine (callInit E m par_filename s).1], ?_, ?_⟩
    · rw [hrun]; simp
    · simp [prologue, modeBanner, pathEcho, failureLine]
  · intro hinit n hexit
    obtain ⟨n0, hle, hb, ha⟩ := first_exit E (loopStart E m par_filename s) n hexit
    refine ⟨n0, hle, ?_⟩
    intro fuel hfuel
    have hf : n0 < fuel := lt_of_le_of_lt hle hfuel
    have hrun := run_exited E n0 fuel m par_filename s hinit hb ha hf
    refine ⟨by rw [hrun], calls_run_exited E n0 fuel m par_filename s hinit hb ha hf,
      _, by rw [hrun], final_not_before_exit E n0 m par_filename s⟩
  · intro hinit fuel hall
    exact ⟨by rw [run_running E fuel m par_filename s hinit hall],
      calls_run_running E fuel m par_filename s hinit hall⟩

/-- C3, amended, at three runs: a failed `init`, a loop of three steps, and a
stalled loop followed for four condition reads. -/
theorem call_sequence_shape_witness :
    calls (run_lisflood failingEngine 10 callerMemory 0 idleClock).trace
      = [Call.init, Call.final] ∧
    (∃ n0, n0 ≤ 3 ∧ ∀ fuel, 3 < fuel →
      (run_lisflood threeStepEngine fuel callerMemory 0 idleClock).ret = some 0 ∧
      calls (run_lisflood threeStepEngine fuel callerMemory 0 idleClock).trace =
        [Call.init, Call.init_iterateq] ++ List.replicate n0 Call.iterateq_step ++
          [Call.final] ∧
      ∃ before, (run_lisflood threeStepEngine fuel callerMemory 0 idleClock).trace
          = before ++ [Event.final] ∧ Event.final ∉ before) ∧
    ((run_lisflood stalledEngine 4 callerMemory 0 idleClock).ret = none ∧
      calls (run_lisflood stalledEngine 4 callerMemory 0 idleClock).trace =
        [Call.init, Call.init_iterateq] ++ List.replicate 4 Call.iterateq_step) :=
  ⟨((call_sequence_shape failingEngine callerMemory 0 idleClock).1 (by decide) 10).2.1,
    (call_sequence_shape threeStepEngine callerMemory 0 idleClock).2.1 rfl 3 threeStep_at,
    (call_sequence_shape stalledEngine callerMemory 0 idleClock).2.2 rfl 4
      (fun k _ => stalled_below k)⟩

/-- C4 as stated fails: the engine leaves a not-a-number in `t`; the run
returns 0, and the last values read by the loop condition are `t` = NaN and
`Sim_Time` = 1, for which `t >= Sim_Time` is false. -/
theorem last_read_nan_below_target :
    (callInit nanEngine callerMemory 0 idleClock).1 = 0 ∧
    (run_lisflood nanEngine 1 callerMemory 0 idleClock).ret = some 0 ∧
    (condReads (run_lisflood nanEngine 1 callerMemory 0 idleClock).trace).getLast?
      = some (Numeric.nan, Numeric.fin 1) ∧
    Numeric.ge Numeric.nan (Numeric.fin 1) = false := by
  refine ⟨rfl, ?_, ?_, rfl⟩
  · simp [run_lisflood, callInit, nanEngine, mockEngine, stepLoop, Numeric.lt]
  · simp [run_lisflood, callInit, nanEngine, mockEngine, stepLoop, Numeric.lt, condReads,
      Event.read]

/-- C4, amended: when `init` returns 0 and the loop condition fails after some
number `n` of steps, every run followed for more than `n` condition reads has
returned 0, and the last values of `t` and `Sim_Time` read by the loop
condition do not satisfy `t < Sim_Time`; they satisfy `t >= Sim_Time` whenever
neither is a not-a-number. -/
theorem last_read_not_below_target (E : Engine σ) (m : Memory) (par_filename : Ptr)
    (s : σ) (n : Nat) (hinit : (callInit E m par_filename s).1 = 0)
    (hexit : below (clockAfter E (loopStart E m par_filename s) n) = false) :
    ∀ fuel, n < fuel →
      (run_lisflood E fuel m par_filename s).ret = some 0 ∧
      ∃ t T, (condReads (run_lisflood E fuel m par_filename s).trace).getLast? = some (t, T) ∧
        Numeric.lt t T = false ∧
        (t ≠ Numeric.nan → T ≠ Numeric.nan → Numeric.ge t T = true) := by
  intro fuel hfuel
  obtain ⟨n0, hle, hb, ha⟩ := first_exit E (loopStart E m par_filename s) n hexit
  have hf : n0 < fuel := lt_of_le_of_lt hle hfuel
  have hrun := run_exited E n0 fuel m par_filename s hinit hb ha hf
  refine ⟨by rw [hrun], (clockAfter E (loopStart E m par_filename s) n0).t,
    (clockAfter E (loopStart E m par_filename s) n0).Sim_Time, ?_, ha,
    fun h1 h2 => Numeric.ge_of_not_lt ha h1 h2⟩
  rw [hrun]
  simp only [condReads_append, condReads_prologue, condReads_iterations]
  simp [condReads, Event.read, loopBanner]

/-- C4, amended, at the engine that needs three steps: followed for ten
condition reads the run has returned 0, and its last read does not have `t`
below `Sim_Time`. -/
theorem last_read_not_below_target_witness :
    (callInit threeStepEngine callerMemory 0 idleClock).1 = 0 ∧
    below (clockAfter threeStepEngine (loopStart threeStepEngine callerMemory 0 idleClock) 3)
      = false ∧
    (run_lisflood threeStepEngine 10 callerMemory 0 idleClock).ret = some 0 ∧
    ∃ t T, (condReads (run_lisflood threeStepEngine 10 callerMemory 0 idleClock).trace).getLast?
        = some (t, T) ∧
      Numeric.lt t T = false ∧
      (t ≠ Numeric.nan → T ≠ Numeric.nan → Numeric.ge t T = true) :=
  ⟨rfl, threeStep_at,
    last_read_not_below_target threeStepEngine callerMemory 0 idleClock 3 rfl threeStep_at 10
      (by decide)⟩

/-- C5 as stated fails: with a not-a-number in `t` when the loop starts, the
run returns 0 without a single step, although `t >= Sim_Time` does not hold
after 0 steps and would first hold after 1 step. -/
theorem step_count_nan_not_first_reach :
    (callInit lateEngine callerMemory 0 idleClock).1 = 0 ∧
    (run_lisflood lateEngine 5 callerMemory 0 idleClock).ret = some 0 ∧
    (calls (run_lisflood lateEngine 5 callerMemory 0 idleClock).trace).count
      Call.iterateq_step = 0 ∧
    Numeric.ge (clockAfter lateEngine (loopStart lateEngine callerMemory 0 idleClock) 0).t
      (clockAfter lateEngine (loopStart lateEngine callerMemory 0 idleClock) 0).Sim_Time
      = false ∧
    Numeric.ge (clockAfter lateEngine (loopStart lateEngine callerMemory 0 idleClock) 1).t
      (clockAfter lateEngine (loopStart lateEngine callerMemory 0 idleClock) 1).Sim_Time
      = true := by
  have hat : below (clockAfter lateEngine (loopStart lateEngine callerMemory 0 idleClock) 0)
      = false := by
    simp [below, clockAfter, loopStart, lateEngine, mockEngine, Numeric.lt]
  have hb : ∀ k, k < 0 → below (clockAfter lateEngine
      (loopStart lateEngine callerMemory 0 idleClock) k) = true :=
    fun k hk => absurd hk (Nat.not_lt_zero k)
  refine ⟨rfl, ?_, ?_, ?_, ?_⟩
  · rw [run_exited lateEngine 0 5 callerMemory 0 idleClock rfl hb hat (by decide)]
  · rw [calls_run_exited lateEngine 0 5 callerMemory 0 idleClock rfl hb hat (by decide)]
    decide
  · simp [clockAfter, loopStart, lateEngine, mockEngine, Numeric.ge]
  · simp [clockAfter, loopStart, lateEngine, mockEngine, Numeric.ge]

/-- C5, amended: in a run whose `init` returns 0, let `n` be the least number
of steps after which the clock does not satisfy `t < Sim_Time`. Then the run
returns 0 after exactly `n` calls of `iterateq_step` and one call of `final`;
the condition is read before each step and once more after the last one;
`t >= Sim_Time` holds at none of the reads before a step, and it holds at the
last read whenever neither value read there is a not-a-number. When
`t >= Sim_Time` holds right after `init_iterateq`, `n` is 0. -/
theorem step_count_is_first_failed_read (E : Engine σ) (m : Memory) (par_filename : Ptr)
    (s : σ) (n fuel : Nat) (hinit : (callInit E m par_filename s).1 = 0)
    (hbefore : ∀ k, k < n → below (clockAfter E (loopStart E m par_filename s) k) = true)
    (hat : below (clockAfter E (loopStart E m par_filename s) n) = false)
    (hfuel : n < fuel) :
    (run_lisflood E fuel m par_filename s).ret = some 0 ∧
    (calls (run_lisflood E fuel m par_filename s).trace).count Call.iterateq_step = n ∧
    (calls (run_lisflood E fuel m par_filename s).trace).count Call.final = 1 ∧
    (run_lisflood E fuel m par_filename s).trace.filter Event.isLoopStep =
      (List.range n).flatMap (fun k =>
        [Event.cond (clockAfter E (loopStart E m par_filename s) k).t
          (clockAfter E (loopStart E m par_filename s) k).Sim_Time, Event.iterateq_step]) ++
      [Event.cond (clockAfter E (loopStart E m par_filename s) n).t
        (clockAfter E (loopStart E m par_filename s) n).Sim_Time] ∧
    (∀ k, k < n → Numeric.ge (clockAfter E (loopStart E m par_filename s) k).t
      (clockAfter E (loopStart E m par_filename s) k).Sim_Time = false) ∧
    ((clockAfter E (loopStart E m par_filename s) n).t ≠ Numeric.nan →
      (clockAfter E (loopStart E m par_filename s) n).Sim_Time ≠ Numeric.nan →
      Numeric.ge (clockAfter E (loopStart E m par_filename s) n).t
        (clockAfter E (loopStart E m par_filename s) n).Sim_Time = true) ∧
    (Numeric.ge (clockAfter E (loopStart E m par_filename s) 0).t
      (clockAfter E (loopStart E m par_filename s) 0).Sim_Time = true → n = 0) := by
  have hrun := run_exited E n fuel m par_filename s hinit hbefore hat hfuel
  have hcalls := calls_run_exited E n fuel m par_filename s hinit hbefore hat hfuel
  refine ⟨by rw [hrun], ?_, ?_, ?_, ?_, ?_, ?_⟩
  · rw [hcalls]
    simp [List.count_replicate]
  · rw [hcalls]
    simp [List.count_replicate]
  · rw [hrun]
    simp only [List.filter_append, loopSteps_iterations]
    simp [prologue, modeBanner, pathEcho, loopBanner, Event.isLoopStep]
  · intro k hk
    exact Numeric.ge_eq_false_of_lt (hbefore k hk)
  · intro h1 h2
    exact Numeric.ge_of_not_lt hat h1 h2
  · intro hge
    by_contra hn
    have h0 := hbefore 0 (Nat.pos_of_ne_zero hn)
    have h1 := Numeric.lt_eq_false_of_ge hge
    simp [below, h1] at h0

/-- C5, amended, at the engine that needs three steps (three steps, one
`final`, return code 0) and at the engine whose time has reached the target
when the loop starts (no step, one `final`, return code 0). -/
theorem step_count_is_first_failed_read_witness :
    ((callInit threeStepEngine callerMemory 0 idleClock).1 = 0 ∧
      (run_lisflood threeStepEngine 10 callerMemory 0 idleClock).ret = some 0 ∧
      (calls (run_lisflood threeStepEngine 10 callerMemory 0 idleClock).trace).count
        Call.iterateq_step = 3 ∧
      (calls (run_lisflood threeStepEngine 10 callerMemory 0 idleClock).trace).count
        Call.final = 1) ∧
    ((callInit finishedEngine callerMemory 0 idleClock).1 = 0 ∧
      Numeric.ge (clockAfter finishedEngine (loopStart finishedEngine callerMemory 0 idleClock) 0).t
        (clockAfter finishedEngine (loopStart finishedEngine callerMemory 0 idleClock) 0).Sim_Time
        = true ∧
      (run_lisflood finishedEngine 1 callerMemory 0 idleClock).ret = some 0 ∧
      (calls (run_lisflood finishedEngine 1 callerMemory 0 idleClock).trace).count
        Call.iterateq_step = 0 ∧
      (calls (run_lisflood finishedEngine 1 callerMemory 0 idleClock).trace).count
        Call.final = 1) :=
  have h := step_count_is_first_failed_read threeStepEngine callerMemory 0 idleClock 3 10 rfl
    threeStep_before threeStep_at (by decide)
  have hge : Numeric.ge
      (clockAfter finishedEngine (loopStart finishedEngine callerMemory 0 idleClock) 0).t
      (clockAfter finishedEngine (loopStart finishedEngine callerMemory 0 idleClock) 0).Sim_Time
      = true := by
    simp [clockAfter, loopStart, finishedEngine, mockEngine, Numeric.ge]
  have g := step_count_is_first_failed_read finishedEngine callerMemory 0 idleClock 0 1 rfl
    (fun k hk => absurd hk (Nat.not_lt_zero k)) (Numeric.lt_eq_false_of_ge hge) (by decide)
  ⟨⟨rfl, h.1, h.2.1, h.2.2.1⟩, ⟨rfl, hge, g.1, g.2.1, g.2.2.1⟩⟩

/-- C6 as stated fails: in a loop of 2147483648 iterations the condition
holds before each of them, `iterateq_step` is called 2147483648 times, and the
2147483648th `iter++` is executed with `iter` at 2147483647 (INT_MAX). The
source leaves that overflow undefined: it does not make the counter 2147483648,
which no `int` holds. -/
theorem counter_overflows_at_int_max :
    (callInit (countingEngine 2147483648) callerMemory 0 idleClock).1 = 0 ∧
    (∀ k, k < 2147483648 → below (clockAfter (countingEngine 2147483648)
      (loopStart (countingEngine 2147483648) callerMemory 0 idleClock) k) = true) ∧
    (calls (run_lisflood (countingEngine 2147483648) 2147483648 callerMemory 0
      idleClock).trace).count Call.iterateq_step = 2147483648 ∧
    (run_lisflood (countingEngine 2147483648) 2147483648 callerMemory 0 idleClock).defined
      = false := by
  refine ⟨rfl, counting_before 2147483648, ?_, ?_⟩
  · exact count_steps_run_running (countingEngine 2147483648) 2147483648 callerMemory 0
      idleClock rfl (counting_before 2147483648)
  · rw [run_running (countingEngine 2147483648) 2147483648 callerMemory 0 idleClock rfl
      (counting_before 2147483648)]
    exact countsFit_of_gt (Nat.lt_succ_self 2147483647)

/-- C6, amended: in a run whose `init` returns 0 and whose loop condition holds
before each of the first `n` steps, with `n` at most 2147483647 (INT_MAX): the
counter starts at 0; after `k` of these iterations, `k ≤ n`, the counter is `k`,
no `iter++` has overflowed, and `iterateq_step` has been called `k` times;
iteration `j + 1` reads the condition, takes one step and prints a heartbeat
exactly when `j + 1` is a multiple of 100, and that heartbeat reports `j + 1`
with `t`, `Sim_Time` and `Tstep` as they are after the step; so `k` iterations
print exactly `k / 100` heartbeats, those with step indices 100, 200, .... The
same holds for a run whose loop exits after `n` iterations, which then calls
`final` and returns 0. -/
theorem counter_and_heartbeats (E : Engine σ) (m : Memory) (par_filename : Ptr) (s : σ)
    (n : Nat) (hinit : (callInit E m par_filename s).1 = 0)
    (hbefore : ∀ k, k < n → below (clockAfter E (loopStart E m par_filename s) k) = true)
    (hn : n ≤ 2147483647) :
    (∀ k, k ≤ n →
      (run_lisflood E k m par_filename s).iter = some (k : Int) ∧
      (run_lisflood E k m par_filename s).defined = true ∧
      (calls (run_lisflood E k m par_filename s).trace).count Call.iterateq_step = k ∧
      (run_lisflood E k m par_filename s).trace =
        prologue m par_filename ++
        [Event.init_iterateq, loopBanner (E.Solverptr (loopStart E m par_filename s))] ++
        (List.range k).flatMap (fun j =>
          [Event.cond (clockAfter E (loopStart E m par_filename s) j).t
             (clockAfter E (loopStart E m par_filename s) j).Sim_Time, Event.iterateq_step] ++
          (if (j + 1) % 100 = 0 then
            [Event.printf "Status: Step %d | Time: %.2fs / %.2fs | dt: %.4fs\n"
              [Arg.int ((j + 1 : Nat) : Int),
               Arg.num (clockAfter E (loopStart E m par_filename s) (j + 1)).t,
               Arg.num (clockAfter E (loopStart E m par_filename s) (j + 1)).Sim_Time,
               Arg.num (clockAfter E (loopStart E m par_filename s) (j + 1)).Tstep]]
          else [])) ∧
      lines (run_lisflood E k m par_filename s).trace =
        [modeBanner, pathEcho (m.load par_filename),
         loopBanner (E.Solverptr (loopStart E m par_filename s))] ++
        (List.range (k / 100)).map (fun i =>
          Event.printf "Status: Step %d | Time: %.2fs / %.2fs | dt: %.4fs\n"
            [Arg.int ((100 * (i + 1) : Nat) : Int),
             Arg.num (clockAfter E (loopStart E m par_filename s) (100 * (i + 1))).t,
             Arg.num (clockAfter E (loopStart E m par_filename s) (100 * (i + 1))).Sim_Time,
             Arg.num (clockAfter E (loopStart E m par_filename s) (100 * (i + 1))).Tstep]) ∧
      (lines (run_lisflood E k m par_filename s).trace).length = 3 + k / 100) ∧
    (below (clockAfter E (loopStart E m par_filename s) n) = false → ∀ fuel, n < fuel →
      (run_lisflood E fuel m par_filename s).ret = some 0 ∧
      (run_lisflood E fuel m par_filename s).iter = some (n : Int) ∧
      (run_lisflood E fuel m par_filename s).defined = true ∧
      (calls (run_lisflood E fuel m par_filename s).trace).count Call.iterateq_step = n ∧
      (run_lisflood E fuel m par_filename s).trace =
        prologue m par_filename ++
        [Event.init_iterateq, loopBanner (E.Solverptr (loopStart E m par_filename s))] ++
        (List.range n).flatMap (fun j =>
          [Event.cond (clockAfter E (loopStart E m par_filename s) j).t
             (clockAfter E (loopStart E m par_filename s) j).Sim_Time, Event.iterateq_step] ++
          (if (j + 1) % 100 = 0 then
            [Event.printf "Status: Step %d | Time: %.2fs / %.2fs | dt: %.4fs\n"
              [Arg.int ((j + 1 : Nat) : Int),
               Arg.num (clockAfter E (loopStart E m par_filename s) (j + 1)).t,
               Arg.num (clockAfter E (loopStart E m par_filename s) (j + 1)).Sim_Time,
               Arg.num (clockAfter E (loopStart E m par_filename s) (j + 1)).Tstep]]
          else [])) ++
        [Event.cond (clockAfter E (loopStart E m par_filename s) n).t (clockAfter E (loopStart E m par_filename s) n).Sim_Time, Event.final] ∧
      lines (run_lisflood E fuel m par_filename s).trace =
        [modeBanner, pathEcho (m.load par_filename),
         loopBanner (E.Solverptr (loopStart E m par_filename s))] ++
        (List.range (n / 100)).map (fun i =>
          Event.printf "Status: Step %d | Time: %.2fs / %.2fs | dt: %.4fs\n"
            [Arg.int ((100 * (i + 1) : Nat) : Int),
             Arg.num (clockAfter E (loopStart E m par_filename s) (100 * (i + 1))).t,
             Arg.num (clockAfter E (loopStart E m par_filename s) (100 * (i + 1))).Sim_Time,
             Arg.num (clockAfter E (loopStart E m par_filename s) (100 * (i + 1))).Tstep]) ∧
      (lines (run_lisflood E fuel m par_filename s).trace).length = 3 + n / 100) := by
  refine ⟨?_, ?_⟩
  · intro k hk
    have hb : ∀ j, j < k → below (clockAfter E (loopStart E m par_filename s) j) = true :=
      fun j hj => hbefore j (lt_of_lt_of_le hj hk)
    have hrun := run_running E k m par_filename s hinit hb
    have hlines := lines_run_running E k m par_filename s hinit hb
    rw [lines_iterations] at hlines
    refine ⟨by rw [hrun], ?_, count_steps_run_running E k m par_filename s hinit hb, ?_,
      hlines, ?_⟩
    · rw [hrun]
      exact countsFit_of_le (le_trans hk hn)
    · rw [hrun, iterations_eq_counted]
      rfl
    · rw [hlines]
      simp
      omega
  · intro hat fuel hfuel
    have hrun := run_exited E n fuel m par_filename s hinit hbefore hat hfuel
    have hlines := lines_run_exited E n fuel m par_filename s hinit hbefore hat hfuel
    rw [lines_iterations] at hlines
    refine ⟨by rw [hrun], by rw [hrun], ?_,
      count_steps_run_exited E n fuel m par_filename s hinit hbefore hat hfuel, ?_, hlines, ?_⟩
    · rw [hrun]
      exact countsFit_of_le hn
    · rw [hrun, iterations_eq_counted]
      simp only [List.append_assoc, List.singleton_append]
      rfl
    · rw [hlines]
      simp
      omega

/-- C6, amended, at the engine that needs 250 steps of size 1: the run returns
0 with the counter at 250, and has printed the opening three lines and two
heartbeats. -/
theorem counter_and_heartbeats_witness :
    (callInit (countingEngine 250) callerMemory 0 idleClock).1 = 0 ∧
    (250 : Nat) ≤ 2147483647 ∧
    (run_lisflood (countingEngine 250) 251 callerMemory 0 idleClock).ret = some 0 ∧
    (run_lisflood (countingEngine 250) 251 callerMemory 0 idleClock).iter = some 250 ∧
    (run_lisflood (countingEngine 250) 251 callerMemory 0 idleClock).defined = true ∧
    (calls (run_lisflood (countingEngine 250) 251 callerMemory 0 idleClock).trace).count
      Call.iterateq_step = 250 ∧
    (lines (run_lisflood (countingEngine 250) 251 callerMemory 0 idleClock).trace).length
      = 5 :=
  have h := (counter_and_heartbeats (countingEngine 250) callerMemory 0 idleClock 250 rfl
    (counting_before 250) (by decide)).2 (counting_at 250) 251 (by decide)
  ⟨rfl, by decide, h.1, h.2.1, h.2.2.1, h.2.2.2.1, h.2.2.2.2.2.2⟩

/-- C8: for every caller memory and every `par_filename` that points to one
of its buffers, the one call of `init` gets `argc` = 2 and exactly two tokens,
`progName` and `paramFile`, in this order. `progName` reads "lisflood" and
`paramFile` reads what `par_filename` reads. Both are buffers that did not exist
in the caller's memory, they differ from each other and from `par_filename`,
the caller's buffers are left as they were, and overwriting one token changes
neither the other token nor the caller's string. -/
theorem argv_two_owned_tokens (E : Engine σ) (fuel : Nat) (m : Memory) (par_filename : Ptr)
    (s : σ) (hvalid : par_filename < m.bufs.length) :
    ∃ (progName paramFile : Ptr) (mem : Memory) (rest : List Event),
      (run_lisflood E fuel m par_filename s).trace =
        [modeBanner, pathEcho (m.load par_filename),
         Event.init 2 [progName, paramFile] mem] ++ rest ∧
      (calls (run_lisflood E fuel m par_filename s).trace).count Call.init = 1 ∧
      callInit E m par_filename s = E.init 2 [progName, paramFile] mem s ∧
      mem.load progName = "lisflood" ∧
      mem.load paramFile = m.load par_filename ∧
      (∀ q, q < m.bufs.length → mem.load q = m.load q) ∧
      m.bufs.length ≤ progName ∧ m.bufs.length ≤ paramFile ∧
      progName ≠ paramFile ∧ progName ≠ par_filename ∧ paramFile ≠ par_filename ∧
      (∀ c, (mem.store progName c).load progName = c ∧
        (mem.store progName c).load paramFile = m.load par_filename ∧
        (mem.store progName c).load par_filename = m.load par_filename) ∧
      (∀ c, (mem.store paramFile c).load paramFile = c ∧
        (mem.store paramFile c).load progName = "lisflood" ∧
        (mem.store paramFile c).load par_filename = m.load par_filename) := by
  obtain ⟨rest, hrest⟩ := trace_starts_with_prologue E fuel m par_filename s
  have hlen1 := Memory.length_alloc m "lisflood"
  have hv0 : m.bufs.length < (m.alloc "lisflood").2.bufs.length := by
    rw [hlen1]; exact Nat.lt_succ_self _
  have hpath : (m.alloc "lisflood").2.load par_filename = m.load par_filename :=
    Memory.load_alloc_old m "lisflood" par_filename hvalid
  have hprog : (buildArgv m par_filename).2.load m.bufs.length = "lisflood" := by
    rw [buildArgv_snd, Memory.load_alloc_old (m.alloc "lisflood").2 _ m.bufs.length hv0]
    exact Memory.load_alloc_new m "lisflood"
  have hparam : (buildArgv m par_filename).2.load (m.bufs.length + 1) = m.load par_filename := by
    rw [buildArgv_snd, ← hlen1, hpath]
    exact Memory.load_alloc_new (m.alloc "lisflood").2 (m.load par_filename)
  have hold : ∀ q, q < m.bufs.length → (buildArgv m par_filename).2.load q = m.load q := by
    intro q hq
    have hq1 : q < (m.alloc "lisflood").2.bufs.length := by
      rw [hlen1]; exact Nat.lt_succ_of_lt hq
    rw [buildArgv_snd, Memory.load_alloc_old (m.alloc "lisflood").2 _ q hq1,
      Memory.load_alloc_old m _ q hq]
  have hlen2 : (buildArgv m par_filename).2.bufs.length = m.bufs.length + 2 := by
    rw [buildArgv_snd, Memory.length_alloc, Memory.length_alloc]
  have hin0 : m.bufs.length < (buildArgv m par_filename).2.bufs.length := by
    rw [hlen2]; exact Nat.lt_add_of_pos_right (by decide)
  have hin1 : m.bufs.length + 1 < (buildArgv m par_filename).2.bufs.length := by
    rw [hlen2]; exact Nat.lt_succ_self _
  have hne01 : m.bufs.length ≠ m.bufs.length + 1 := Nat.ne_of_lt (Nat.lt_succ_self _)
  have hne0p : m.bufs.length ≠ par_filename := Nat.ne_of_gt hvalid
  have hne1p : m.bufs.length + 1 ≠ par_filename := Nat.ne_of_gt (Nat.lt_succ_of_lt hvalid)
  refine ⟨m.bufs.length, m.bufs.length + 1, (buildArgv m par_filename).2, rest,
    ?_, count_init_run E fuel m par_filename s, ?_, hprog, hparam, hold, le_refl _,
    Nat.le_succ _, hne01, hne0p, hne1p, ?_, ?_⟩
  · rw [hrest, prologue, buildArgv_fst]
  · rw [callInit, buildArgv_fst]
  · intro c
    refine ⟨Memory.load_store_same _ _ c hin0, ?_, ?_⟩
    · rw [Memory.load_store_other _ _ _ c hne01, hparam]
    · rw [Memory.load_store_other _ _ _ c hne0p, hold _ hvalid]
  · intro c
    refine ⟨Memory.load_store_same _ _ c hin1, ?_, ?_⟩
    · rw [Memory.load_store_other _ _ _ c hne01.symm, hprog]
    · rw [Memory.load_store_other _ _ _ c hne1p, hold _ hvalid]

/-- C8 at a caller memory whose only buffer holds the path: `init` gets the
two new buffers 1 and 2, reading "lisflood" and the path. -/
theorem argv_two_owned_tokens_witness :
    (0 : Ptr) < callerMemory.bufs.length ∧
    ∃ (progName paramFile : Ptr) (mem : Memory) (rest : List Event),
      (run_lisflood failingEngine 1 callerMemory 0 idleClock).trace =
        [modeBanner, pathEcho (callerMemory.load 0),
         Event.init 2 [progName, paramFile] mem] ++ rest ∧
      (calls (run_lisflood failingEngine 1 callerMemory 0 idleClock).trace).count Call.init
        = 1 ∧
      callInit failingEngine callerMemory 0 idleClock
        = failingEngine.init 2 [progName, paramFile] mem idleClock ∧
      mem.load progName = "lisflood" ∧
      mem.load paramFile = callerMemory.load 0 ∧
      (∀ q, q < callerMemory.bufs.length → mem.load q = callerMemory.load q) ∧
      callerMemory.bufs.length ≤ progName ∧ callerMemory.bufs.length ≤ paramFile ∧
      progName ≠ paramFile ∧ progName ≠ 0 ∧ paramFile ≠ 0 ∧
      (∀ c, (mem.store progName c).load progName = c ∧
        (mem.store progName c).load paramFile = callerMemory.load 0 ∧
        (mem.store progName c).load 0 = callerMemory.load 0) ∧
      (∀ c, (mem.store paramFile c).load paramFile = c ∧
        (mem.store paramFile c).load progName = "lisflood" ∧
        (mem.store paramFile c).load 0 = callerMemory.load 0) :=
  ⟨by decide, argv_two_owned_tokens failingEngine 1 callerMemory 0 idleClock (by decide)⟩

/-- C9 as stated fails: in a run of 2147483700 steps the loop condition holds
before each of them, and the 2147483648th `iter++` is executed with `iter` at
2147483647 (INT_MAX). The source leaves that overflow undefined: from there on
it does not determine the lines, and the step index 2147483700 that the
heartbeat after 2147483700 completed steps would report is not an `int`. -/
theorem heartbeat_index_overflows :
    (callInit (countingEngine 2147483700) callerMemory 0 idleClock).1 = 0 ∧
    (∀ k, k < 2147483700 → below (clockAfter (countingEngine 2147483700)
      (loopStart (countingEngine 2147483700) callerMemory 0 idleClock) k) = true) ∧
    (calls (run_lisflood (countingEngine 2147483700) 2147483648 callerMemory 0
      idleClock).trace).count Call.iterateq_step = 2147483648 ∧
    (run_lisflood (countingEngine 2147483700) 2147483648 callerMemory 0 idleClock).defined
      = false ∧
    countsFit 0 2147483700 = false := by
  have hb : ∀ k, k < 2147483648 → below (clockAfter (countingEngine 2147483700)
      (loopStart (countingEngine 2147483700) callerMemory 0 idleClock) k) = true :=
    fun k hk => counting_before 2147483700 k (lt_trans hk (by decide))
  refine ⟨rfl, counting_before 2147483700, ?_, ?_, countsFit_of_gt (by decide)⟩
  · exact count_steps_run_running (countingEngine 2147483700) 2147483648 callerMemory 0
      idleClock rfl hb
  · rw [run_running (countingEngine 2147483700) 2147483648 callerMemory 0 idleClock rfl hb]
    exact countsFit_of_gt (Nat.lt_succ_self 2147483647)

/-- C9, amended: the lines of a run are, in order, the mode banner and the
echo of the input path; then, when `init` returned a code other than 0, the
failure message with that code and nothing more. When `init` returned 0 and
the loop exits after `n` steps, `n` at most 2147483647 (INT_MAX), the next line
is the loop-start banner with `t` and `Sim_Time` as read after `init_iterateq`,
followed only by the heartbeats with step indices 100, 200, ... up to `n`, one
per 100 completed steps and in this order, each with the clock fields read
after its step; the run ends with the failing condition read and `final`, so
no line follows the loop. While the loop condition has held at each of `fuel`
reads, `fuel` at most 2147483647, the same holds of the lines printed so
far. -/
theorem status_lines_in_order (E : Engine σ) (m : Memory) (par_filename : Ptr) (s : σ) :
    ((callInit E m par_filename s).1 ≠ 0 → ∀ fuel,
      lines (run_lisflood E fuel m par_filename s).trace =
        [modeBanner, pathEcho (m.load par_filename),
         failureLine (callInit E m par_filename s).1]) ∧
    ((callInit E m par_filename s).1 = 0 → ∀ n, n ≤ 2147483647 →
      (∀ k, k < n → below (clockAfter E (loopStart E m par_filename s) k) = true) →
      below (clockAfter E (loopStart E m par_filename s) n) = false → ∀ fuel, n < fuel →
      (run_lisflood E fuel m par_filename s).defined = true ∧
      lines (run_lisflood E fuel m par_filename s).trace =
        [modeBanner, pathEcho (m.load par_filename),
         loopBanner (E.Solverptr (loopStart E m par_filename s))] ++
        (List.range (n / 100)).map (fun i =>
          Event.printf "Status: Step %d | Time: %.2fs / %.2fs | dt: %.4fs\n"
            [Arg.int ((100 * (i + 1) : Nat) : Int),
             Arg.num (clockAfter E (loopStart E m par_filename s) (100 * (i + 1))).t,
             Arg.num (clockAfter E (loopStart E m par_filename s) (100 * (i + 1))).Sim_Time,
             Arg.num (clockAfter E (loopStart E m par_filename s) (100 * (i + 1))).Tstep]) ∧
      ∃ before, (run_lisflood E fuel m par_filename s).trace = before ++
        [Event.cond (clockAfter E (loopStart E m par_filename s) n).t
          (clockAfter E (loopStart E m par_filename s) n).Sim_Time, Event.final]) ∧
    ((callInit E m par_filename s).1 = 0 → ∀ fuel, fuel ≤ 2147483647 →
      (∀ k, k < fuel → below (clockAfter E (loopStart E m par_filename s) k) = true) →
      (run_lisflood E fuel m par_filename s).defined = true ∧
      lines (run_lisflood E fuel m par_filename s).trace =
        [modeBanner, pathEcho (m.load par_filename),
         loopBanner (E.Solverptr (loopStart E m par_filename s))] ++
        (List.range (fuel / 100)).map (fun i =>
          Event.printf "Status: Step %d | Time: %.2fs / %.2fs | dt: %.4fs\n"
            [Arg.int ((100 * (i + 1) : Nat) : Int),
             Arg.num (clockAfter E (loopStart E m par_filename s) (100 * (i + 1))).t,
             Arg.num (clockAfter E (loopStart E m par_filename s) (100 * (i + 1))).Sim_Time,
             Arg.num (clockAfter E (loopStart E m par_filename s) (100 * (i + 1))).Tstep])) := by
  refine ⟨fun hne fuel => lines_run_failed E fuel m par_filename s hne, ?_, ?_⟩
  · intro hinit n hn hb ha fuel hfuel
    have hrun := run_exited E n fuel m par_filename s hinit hb ha hfuel
    have hlines := lines_run_exited E n fuel m par_filename s hinit hb ha hfuel
    rw [lines_iterations] at hlines
    refine ⟨?_, hlines, ?_⟩
    · rw [hrun]
      exact countsFit_of_le hn
    · rw [hrun]
      exact ⟨prologue m par_filename ++
        [Event.init_iterateq, loopBanner (E.Solverptr (loopStart E m par_filename s))] ++
        (List.range n).flatMap (iteration E 0 (loopStart E m par_filename s)),
        by simp only [List.append_assoc, List.singleton_append]⟩
  · intro hinit fuel hfuel hall
    have hrun := run_running E fuel m par_filename s hinit hall
    have hlines := lines_run_running E fuel m par_filename s hinit hall
    rw [lines_iterations] at hlines
    refine ⟨?_, hlines⟩
    rw [hrun]
    exact countsFit_of_le hfuel

/-- C9, amended, at two runs: a failed `init` with code 3, and a loop of 250
steps of size 1, which prints the heartbeats with step indices 100 and 200. -/
theorem status_lines_in_order_witness :
    lines (run_lisflood failingEngine 10 callerMemory 0 idleClock).trace
      = [modeBanner, pathEcho "/data/run.par", failureLine 3] ∧
    lines (run_lisflood (countingEngine 250) 251 callerMemory 0 idleClock).trace
      = [modeBanner, pathEcho "/data/run.par",
         loopBanner ⟨Numeric.fin 0, Numeric.fin 250, Numeric.fin 1⟩,
         Event.printf "Status: Step %d | Time: %.2fs / %.2fs | dt: %.4fs\n"
           [Arg.int 100, Arg.num (Numeric.fin 100), Arg.num (Numeric.fin 250),
            Arg.num (Numeric.fin 1)],
         Event.printf "Status: Step %d | Time: %.2fs / %.2fs | dt: %.4fs\n"
           [Arg.int 200, Arg.num (Numeric.fin 200), Arg.num (Numeric.fin 250),
            Arg.num (Numeric.fin 1)]] :=
  have h := ((status_lines_in_order (countingEngine 250) callerMemory 0 idleClock).2.1
    rfl 250 (by decide) (counting_before 250) (counting_at 250) 251 (by decide)).2.1
  have hr : List.range (250 / 100) = [0, 1] := by decide
  have h100 : clockAfter (countingEngine 250)
      (loopStart (countingEngine 250) callerMemory 0 idleClock) 100
      = ⟨Numeric.fin 100, Numeric.fin 250, Numeric.fin 1⟩ := by
    rw [counting_clock]
    norm_num
  have h200 : clockAfter (countingEngine 250)
      (loopStart (countingEngine 250) callerMemory 0 idleClock) 200
      = ⟨Numeric.fin 200, Numeric.fin 250, Numeric.fin 1⟩ := by
    rw [counting_clock]
    norm_num
  have hstart : (countingEngine 250).Solverptr
      (loopStart (countingEngine 250) callerMemory 0 idleClock)
      = ⟨Numeric.fin 0, Numeric.fin 250, Numeric.fin 1⟩ := by
    simp [countingEngine, mockEngine, loopStart]
  ⟨(status_lines_in_order failingEngine callerMemory 0 idleClock).1 (by decide) 10,
    by
      rw [h, hr, hstart]
      simp only [List.map_cons, List.map_nil]
      rw [show 100 * (0 + 1) = 100 from rfl, show 100 * (1 + 1) = 200 from rfl, h100, h200]
      rfl⟩

/-- C10 as stated fails: the step of this engine leaves `t` unchanged and the
loop starts with `t` below `Sim_Time`, yet the step pulls `Sim_Time` down to
`t`; the loop exits after one step, `final` is called and the run returns 0. -/
theorem zero_step_size_can_still_exit :
    (callInit retargetEngine callerMemory 0 idleClock).1 = 0 ∧
    below (clockAfter retargetEngine (loopStart retargetEngine callerMemory 0 idleClock) 0)
      = true ∧
    (retargetEngine.Solverptr (retargetEngine.iterateq_step
        (loopStart retargetEngine callerMemory 0 idleClock))).t
      = (retargetEngine.Solverptr (loopStart retargetEngine callerMemory 0 idleClock)).t ∧
    (run_lisflood retargetEngine 2 callerMemory 0 idleClock).ret = some 0 ∧
    calls (run_lisflood retargetEngine 2 callerMemory 0 idleClock).trace
      = [Call.init, Call.init_iterateq, Call.iterateq_step, Call.final] := by
  have h0 : below (clockAfter retargetEngine
      (loopStart retargetEngine callerMemory 0 idleClock) 0) = true := by
    simp [below, clockAfter, loopStart, retargetEngine, mockEngine, Numeric.lt]
  have hb : ∀ k, k < 1 → below (clockAfter retargetEngine
      (loopStart retargetEngine callerMemory 0 idleClock) k) = true := by
    intro k hk
    have hk0 : k = 0 := by omega
    rw [hk0]
    exact h0
  have ha : below (clockAfter retargetEngine
      (loopStart retargetEngine callerMemory 0 idleClock) 1) = false := by
    simp [below, clockAfter, loopStart, retargetEngine, mockEngine, Numeric.lt]
  refine ⟨rfl, h0, rfl, ?_, ?_⟩
  · exact ret_run_exited retargetEngine 1 2 callerMemory 0 idleClock rfl hb ha (by decide)
  · rw [calls_run_exited retargetEngine 1 2 callerMemory 0 idleClock rfl hb ha (by decide)]
    rfl

/-- C10, amended: when `init` returns 0, the loop starts with `t` below
`Sim_Time`, and every step leaves `t` unchanged or decreases it and leaves
`Sim_Time` unchanged or raises it, the loop condition holds at every read:
however long the run is followed it has not returned, `final` has not been
called, and a run followed for `fuel` condition reads has called
`iterateq_step` `fuel` times, so for every `n` there is an `n + 1`-th step. -/
theorem degenerate_step_never_exits (E : Engine σ) (m : Memory) (par_filename : Ptr) (s : σ)
    (hinit : (callInit E m par_filename s).1 = 0)
    (hstart : below (E.Solverptr (loopStart E m par_filename s)) = true)
    (hstep : ∀ x : σ, (E.Solverptr (E.iterateq_step x)).t = (E.Solverptr x).t ∨
      Numeric.lt (E.Solverptr (E.iterateq_step x)).t (E.Solverptr x).t = true)
    (htarget : ∀ x : σ,
      (E.Solverptr (E.iterateq_step x)).Sim_Time = (E.Solverptr x).Sim_Time ∨
      Numeric.lt (E.Solverptr x).Sim_Time (E.Solverptr (E.iterateq_step x)).Sim_Time = true) :
    ∀ fuel,
      (run_lisflood E fuel m par_filename s).ret = none ∧
      Call.final ∉ calls (run_lisflood E fuel m par_filename s).trace ∧
      (calls (run_lisflood E fuel m par_filename s).trace).count Call.iterateq_step = fuel ∧
      (∀ r, r ∈ condReads (run_lisflood E fuel m par_filename s).trace →
        Numeric.lt r.1 r.2 = true) := by
  have hone : ∀ x : σ, below (E.Solverptr x) = true →
      below (E.Solverptr (E.iterateq_step x)) = true := by
    intro x hx
    unfold below at hx ⊢
    have h1 : Numeric.lt (E.Solverptr (E.iterateq_step x)).t (E.Solverptr x).Sim_Time = true := by
      rcases hstep x with h | h
      · rw [h]; exact hx
      · exact Numeric.lt_chain h hx
    rcases htarget x with h | h
    · rw [h]; exact h1
    · exact Numeric.lt_chain h1 h
  have hall : ∀ k, below (clockAfter E (loopStart E m par_filename s) k) = true := by
    intro k
    induction k with
    | zero => simpa [clockAfter] using hstart
    | succ k ih =>
      have e : clockAfter E (loopStart E m par_filename s) (k + 1)
          = E.Solverptr (E.iterateq_step (E.iterateq_step^[k] (loopStart E m par_filename s))) := by
        simp [clockAfter, Function.iterate_succ_apply']
      rw [e]
      exact hone _ ih
  intro fuel
  have hrun := run_running E fuel m par_filename s hinit (fun k _ => hall k)
  have hcalls := calls_run_running E fuel m par_filename s hinit (fun k _ => hall k)
  refine ⟨by rw [hrun], ?_, ?_, ?_⟩
  · rw [hcalls]
    simp [List.mem_replicate]
  · rw [hcalls]
    simp only [List.count_append, count_step_replicate]
    simp
  · intro r hr
    rw [hrun] at hr
    simp only [condReads_append, condReads_prologue, condReads_iterations] at hr
    simp only [condReads, Event.read, loopBanner, List.filterMap_cons, List.filterMap_nil,
      List.nil_append, List.mem_map, List.mem_range] at hr
    obtain ⟨k, _, rfl⟩ := hr
    exact hall k

/-- C10, amended, at the stalled engine (step size zero, time 0 below the
target 1): followed for seven condition reads, the run has taken seven steps
and has neither returned nor called `final`. -/
theorem degenerate_step_never_exits_witness :
    (callInit stalledEngine callerMemory 0 idleClock).1 = 0 ∧
    below (stalledEngine.Solverptr (loopStart stalledEngine callerMemory 0 idleClock)) = true ∧
    (run_lisflood stalledEngine 7 callerMemory 0 idleClock).ret = none ∧
    Call.final ∉ calls (run_lisflood stalledEngine 7 callerMemory 0 idleClock).trace ∧
    (calls (run_lisflood stalledEngine 7 callerMemory 0 idleClock).trace).count
      Call.iterateq_step = 7 :=
  have hstart : below (stalledEngine.Solverptr
      (loopStart stalledEngine callerMemory 0 idleClock)) = true := by
    simp [below, loopStart, stalledEngine, mockEngine, Numeric.lt]
  have h := degenerate_step_never_exits stalledEngine callerMemory 0 idleClock rfl hstart
    (fun _ => Or.inl rfl) (fun _ => Or.inl rfl) 7
  ⟨rfl, hstart, h.1, h.2.1, h.2.2.1⟩

end Lisflood
